import Mathlib

/-!
Verification of the connector abstraction layer of the db-mcp repository.

The Python adapters are shallowly embedded: strings become `List Char`,
Python functions become Lean functions, driver and engine boundaries become
explicit parameters, exceptions become explicit result constructors.
-/

set_option maxHeartbeats 1000000

namespace DbMcp

/-- Python `\w` on the ASCII inputs used by the adapters: letters, digits, underscore. -/
def isWordChar (c : Char) : Bool := c.isAlphanum || c = '_'

/-- Scan of `re.findall(r':(\w+)', s)` : every non-overlapping occurrence of a colon
followed by a maximal non-empty run of word characters, in order of appearance.
Embeds the parameter-name scan of `PostgreSQLConnector.execute_query` and
`SQLServerConnector.execute_query`. -/
def findNamed (s : List Char) : List (List Char) :=
  match s with
  | [] => []
  | c :: rest =>
    if c = ':' then
      let name := rest.takeWhile isWordChar
      if name.isEmpty then findNamed rest
      else name :: findNamed (rest.drop name.length)
    else findNamed rest
termination_by s.length
decreasing_by
  · simp
  · simp only [List.length_drop, List.length_cons]
    omega
  · simp

/-- Python `s.replace(old, new)` for non-empty `old`: replace every
non-overlapping occurrence, scanning left to right.  (The adapters only ever
call it with `':' + name`, which is non-empty.) -/
def replaceAll (s old new : List Char) : List Char :=
  if _hold : old.length = 0 then s
  else
    match s with
    | [] => []
    | c :: rest =>
      if old.isPrefixOf (c :: rest) then
        new ++ replaceAll ((c :: rest).drop old.length) old new
      else
        c :: replaceAll rest old new
termination_by s.length
decreasing_by
  · simp only [List.length_drop, List.length_cons]
    omega
  · simp

/-- The ASCII character of the decimal digit `d` (for `d < 10`). -/
def digitChar (d : Nat) : Char := Char.ofNat (48 + d)

/-- Accumulator loop producing decimal digits most-significant first; the
first argument is structural fuel (the number itself always suffices, since
each step divides by ten). -/
def natDigitsGo : Nat → Nat → List Char → List Char
  | 0, _, acc => acc
  | _ + 1, 0, acc => acc
  | fuel + 1, n + 1, acc =>
    natDigitsGo fuel ((n + 1) / 10) (digitChar ((n + 1) % 10) :: acc)

/-- Decimal digits of a natural number, as produced by Python `f-string`
formatting of an `int`. -/
def natDigits (n : Nat) : List Char := if n = 0 then ['0'] else natDigitsGo n n []

/-- The PostgreSQL positional placeholder text for index `i`: a dollar sign
followed by the decimal digits of `i`. -/
def dollarTok (i : Nat) : List Char := '$' :: natDigits i

/-- The loop of `PostgreSQLConnector.execute_query`:
`for i, name in enumerate(param_names, 1): query = query.replace(f':{name}', f'${i}')`. -/
def pgRewriteAux (i : Nat) (names : List (List Char)) (q : List Char) : List Char :=
  match names with
  | [] => q
  | n :: ns => pgRewriteAux (i + 1) ns (replaceAll q (':' :: n) (dollarTok i))

/-- Query rewriting performed by `PostgreSQLConnector.execute_query` when a
parameter mapping is supplied: scan the names, then replace each in turn. -/
def pgRewriteQuery (q : List Char) : List Char :=
  pgRewriteAux 1 (findNamed q) q

/-- The loop of `SQLServerConnector.execute_query`:
`for name in param_names: query = query.replace(f':{name}', '?')`. -/
def ssRewriteAux (names : List (List Char)) (q : List Char) : List Char :=
  match names with
  | [] => q
  | n :: ns => ssRewriteAux ns (replaceAll q (':' :: n) ['?'])

/-- Query rewriting performed by `SQLServerConnector.execute_query`. -/
def ssRewriteQuery (q : List Char) : List Char :=
  ssRewriteAux (findNamed q) q

/-- Python dict lookup `params[name]` over an association list, `None`-free:
`none` models the `KeyError` case. -/
def lookupParam {V : Type} (ps : List (List Char × V)) (n : List Char) : Option V :=
  match ps with
  | [] => none
  | (k, v) :: rest => if k = n then some v else lookupParam rest n

/-- The positional argument list `[params[name] for name in param_names]`
built by both rewriting adapters; `none` models a `KeyError`. -/
def paramValues {V : Type} (ps : List (List Char × V)) (q : List Char) :
    Option (List V) :=
  (findNamed q).mapM (lookupParam ps)

/-! ### A token-level view of query texts

To reason about the rewriting loops on arbitrary queries, a query text is
presented as an interleaving of literal segments and `:name` placeholder
occurrences.  `render` maps the token view back to the raw character list the
adapters actually receive; all adapter functions still operate on raw
character lists. -/

/-- A query-text segment: literal text, or one occurrence of a `:name`
placeholder. -/
inductive QTok : Type
  | lit (s : List Char)
  | par (n : List Char)
deriving DecidableEq

/-- Raw character text denoted by a token list. -/
def render : List QTok → List Char
  | [] => []
  | QTok.lit s :: ts => s ++ render ts
  | QTok.par n :: ts => ':' :: (n ++ render ts)

/-- Placeholder names of a token list, in order of appearance, repeats kept. -/
def parNames : List QTok → List (List Char)
  | [] => []
  | QTok.lit _ :: ts => parNames ts
  | QTok.par n :: ts => n :: parNames ts

/-- Literal characters that keep the token view unambiguous: no colon (so every
colon in the rendered text starts a placeholder) and no dollar or question
mark (so placeholders can be counted in the rewritten text). -/
def litCharOk (c : Char) : Bool := c ≠ ':' && c ≠ '$' && c ≠ '?'

/-- Well-formedness of one token. -/
def tokWf : QTok → Bool
  | QTok.lit s => s.all litCharOk
  | QTok.par n => !n.isEmpty && n.all isWordChar

/-- A token whose rendered text cannot extend a preceding placeholder name:
either another placeholder (starts with a colon) or a non-empty literal
starting with a non-word character. -/
def headBlocks : QTok → Bool
  | QTok.lit [] => false
  | QTok.lit (c :: _) => !isWordChar c
  | QTok.par _ => true

/-- Every placeholder token is followed by a blocking token (or is last), so
its name is maximal in the rendered text. -/
def seps : List QTok → Bool
  | [] => true
  | QTok.par _ :: t :: ts => headBlocks t && seps (t :: ts)
  | _ :: ts => seps ts

/-- Full well-formedness of a token list. -/
def wfToks (ts : List QTok) : Bool := ts.all tokWf && seps ts

/-- A partial replacement of placeholder names by literal text. -/
def Sub : Type := List Char → Option (List Char)

/-- Apply a replacement to every placeholder occurrence whose name it maps. -/
def applySubF (σ : Sub) : List QTok → List QTok
  | [] => []
  | QTok.lit s :: ts => QTok.lit s :: applySubF σ ts
  | QTok.par n :: ts =>
    (match σ n with
     | some r => QTok.lit r
     | none => QTok.par n) :: applySubF σ ts

/-- Replacement text admissible mid-rewrite: non-empty, starts with a
non-word character, contains no colon. -/
def replOk (r : List Char) : Bool :=
  (match r with
   | [] => false
   | c :: _ => !isWordChar c) && r.all (· ≠ ':')

/-- All texts produced by a replacement are admissible. -/
def subOk (σ : Sub) : Prop := ∀ m r, σ m = some r → replOk r = true

/-- Point update of a replacement. -/
def subUpd (σ : Sub) (n r : List Char) : Sub :=
  fun m => if m = n then some r else σ m

/-- Left-biased union of two replacements. -/
def subOver (τ σ : Sub) : Sub :=
  fun m => match τ m with
           | some r => some r
           | none => σ m

/-- The empty replacement. -/
def subNone : Sub := fun _ => none

/-- The replacement accumulated by the PostgreSQL loop on distinct names:
the j-th name (0-based) of `ns` maps to `$ (i+j)`. -/
def idxSub (i : Nat) (ns : List (List Char)) : Sub :=
  fun m =>
    match ns with
    | [] => none
    | n :: rest => if m = n then some (dollarTok i) else idxSub (i + 1) rest m

/-- The replacement accumulated by the SQL Server loop: every listed name
maps to a question mark. -/
def memSub (ns : List (List Char)) : Sub :=
  fun m => if m ∈ ns then some ['?'] else none

/-- Final shape of a PostgreSQL-rewritten token list: the j-th placeholder
occurrence (counting from `i`) becomes the literal `$j`. -/
def pgNumber (i : Nat) : List QTok → List QTok
  | [] => []
  | QTok.lit s :: ts => QTok.lit s :: pgNumber i ts
  | QTok.par _ :: ts => QTok.lit (dollarTok i) :: pgNumber (i + 1) ts

/-- Final shape of a SQL-Server-rewritten token list: every placeholder
occurrence becomes a question mark. -/
def ssMap : List QTok → List QTok
  | [] => []
  | QTok.lit s :: ts => QTok.lit s :: ssMap ts
  | QTok.par _ :: ts => QTok.lit ['?'] :: ssMap ts

/-- No placeholder name is a proper prefix of a different placeholder name. -/
def prefixFreeB (ns : List (List Char)) : Bool :=
  ns.all (fun n => ns.all (fun m => !(n.isPrefixOf m) || n = m))

/-! ### Python string helpers used by the adapters -/

/-- Python whitespace stripped by `str.strip()` (ASCII subset). -/
def pyIsSpace (c : Char) : Bool :=
  c = ' ' || c = '\t' || c = '\n' || c = '\r' || c = '\x0b' || c = '\x0c'

/-- Python `str.strip()`. -/
def pyStrip (s : List Char) : List Char :=
  ((s.dropWhile pyIsSpace).reverse.dropWhile pyIsSpace).reverse

/-- Python `str.upper()` on the ASCII query texts. -/
def pyUpper (s : List Char) : List Char := s.map Char.toUpper

/-- Python `str.startswith(tuple_of_prefixes)`. -/
def startsWithOne (s : List Char) (ps : List (List Char)) : Bool :=
  ps.any (fun p => p.isPrefixOf s)

/-- The read-statement test of `MySQLConnector.execute_query`:
`query.strip().upper().startswith(('SELECT', 'SHOW', 'DESCRIBE', 'EXPLAIN'))`. -/
def mysqlIsRead (q : List Char) : Bool :=
  startsWithOne (pyUpper (pyStrip q))
    ["SELECT".data, "SHOW".data, "DESCRIBE".data, "EXPLAIN".data]

/-- The read-statement test of `SQLServerConnector.execute_query`:
`query.strip().upper().startswith(('SELECT', 'EXEC', 'WITH'))`. -/
def ssIsRead (q : List Char) : Bool :=
  startsWithOne (pyUpper (pyStrip q)) ["SELECT".data, "EXEC".data, "WITH".data]

/-- The write-statement test of `SQLiteConnector.execute_query`:
`query.strip().upper().startswith(('INSERT', 'UPDATE', 'DELETE'))`. -/
def sqliteIsWrite (q : List Char) : Bool :=
  startsWithOne (pyUpper (pyStrip q)) ["INSERT".data, "UPDATE".data, "DELETE".data]

/-! ### Row values and Python outcomes -/

/-- A JSON-safe scalar cell value of a relational result row. -/
inductive Val : Type
  | vstr (s : List Char)
  | vint (n : Int)
  | vbool (b : Bool)
  | vnull
deriving DecidableEq

/-- One result-row mapping. -/
abbrev Row : Type := List (List Char × Val)

/-- Outcome of a Python call at the adapter boundary: a returned value, or an
exception propagating to the caller. -/
inductive PyResult (α : Type) : Type
  | ret (a : α)
  | exn (msg : List Char)
deriving DecidableEq

/-- Whether a call returned (no exception escaped). -/
def PyResult.isRet {α : Type} : PyResult α → Bool
  | PyResult.ret _ => true
  | PyResult.exn _ => false

/-- The one-element error marker `[{'error': str(e)}]` shared by all adapters. -/
def errorRow (e : List Char) : Row := [("error".data, Val.vstr e)]

/-- The write summary `[{'affected_rows': cursor.rowcount}]` of the MySQL,
SQL Server and SQLite adapters. -/
def affectedRow (rc : Int) : Row := [("affected_rows".data, Val.vint rc)]

/-- Message of the `AttributeError` raised when a method is invoked on a
`None` connection or pool handle. -/
def noneAttrMsg : List Char :=
  "AttributeError: NoneType has no attribute acquire".data

/-- Driver-side outcome of `cursor.execute` plus row fetching: an exception
message, or the fetched rows together with `cursor.rowcount`. -/
abbrev SqlExec : Type := Except (List Char) (List Row × Int)

/-- `MySQLConnector.execute_query` (mysql.py lines 76-95): the implicit
one-shot connect, then `async with self.pool.acquire()` OUTSIDE the
try-block — so an absent pool raises `AttributeError` to the caller — then
the try-block around execution, the read/write split, and the catch-all
returning an error row.  `poolPresent` is whether `self.pool` is set,
`connectOk` the outcome of the implicit `connect` attempt, `drv` the driver
outcome of `cursor.execute` and fetching. -/
def mysqlExecuteQuery (poolPresent connectOk : Bool) (drv : SqlExec)
    (q : List Char) : PyResult (List Row) :=
  let pool := poolPresent || connectOk
  if pool = false then PyResult.exn noneAttrMsg
  else
    match drv with
    | Except.error e => PyResult.ret [errorRow e]
    | Except.ok (rows, rc) =>
      if mysqlIsRead q then PyResult.ret rows
      else PyResult.ret [affectedRow rc]

/-- `PostgreSQLConnector.execute_query` (postgresql.py lines 41-64): implicit
connect, then one try-block around everything — parameter rewriting (see
`pgRewriteQuery`), prepare/fetch, and row conversion; an absent connection
surfaces as an `AttributeError` inside the try and is caught.  There is no
write-summary branch: the returned rows are exactly the fetched rows.  `drv`
is the outcome of prepare/fetch (also standing for a `KeyError` from the
parameter lookup); for a write statement without RETURNING, asyncpg fetches
zero rows, so `drv = Except.ok []`. -/
def pgExecuteQuery (connPresent connectOk : Bool)
    (drv : Except (List Char) (List Row)) : PyResult (List Row) :=
  let conn := connPresent || connectOk
  PyResult.ret
    (if conn = false then [errorRow noneAttrMsg]
     else
       match drv with
       | Except.error e => [errorRow e]
       | Except.ok rows => rows)

/-- `SQLServerConnector.execute_query` (sqlserver.py lines 64-97): implicit
connect, then one try-block that INCLUDES the pool acquisition — an absent
pool raises inside the try and is caught — parameter rewriting (see
`ssRewriteQuery`), execution, the read/write split, and the catch-all. -/
def ssExecuteQuery (poolPresent connectOk : Bool) (drv : SqlExec)
    (q : List Char) : PyResult (List Row) :=
  PyResult.ret
    (if (poolPresent || connectOk) = false then [errorRow noneAttrMsg]
     else
       match drv with
       | Except.error e => [errorRow e]
       | Except.ok (rows, rc) =>
         if ssIsRead q then rows else [affectedRow rc])

/-- `SQLiteConnector.execute_query` (sqlite.py lines 64-79): implicit connect,
then one try-block including `self.conn.execute` — an absent connection
raises inside the try and is caught — fetch, and the empty-result write
branch returning the rowcount summary. -/
def sqliteExecuteQuery (connPresent connectOk : Bool) (drv : SqlExec)
    (q : List Char) : PyResult (List Row) :=
  PyResult.ret
    (if (connPresent || connectOk) = false then [errorRow noneAttrMsg]
     else
       match drv with
       | Except.error e => [errorRow e]
       | Except.ok (rows, rc) =>
         if rows.isEmpty && sqliteIsWrite q then [affectedRow rc] else rows)

/-! ### The `connect` methods (frame behaviour on an existing handle) -/

/-- Driver-level actions observable during `connect`. -/
inductive ConnAction : Type
  | createNew
  | closedOld
deriving DecidableEq

/-- `MySQLConnector.connect` (mysql.py lines 46-61): unconditionally calls
`aiomysql.create_pool`; on success assigns the new pool over the stored one
without closing it; on failure keeps the old handle and returns `False`.
`PostgreSQLConnector.connect`, `SQLServerConnector.connect` and
`SQLiteConnector.connect` have the same shape over their own driver calls. -/
def poolConnect (pool : Option Nat) (create : Except (List Char) Nat) :
    Option Nat × Bool × List ConnAction :=
  match create with
  | Except.ok p => (some p, true, [ConnAction.createNew])
  | Except.error _ => (pool, false, [ConnAction.createNew])

/-- `MongoDBConnector.connect` (mongodb.py lines 34-44): unconditionally
constructs a new client and assigns it over the stored one without closing
it, then pings; on ping failure it still holds the new client and returns
`False`. -/
def mongoConnect (_client : Option Nat) (newClient : Nat) (pingOk : Bool) :
    Option Nat × Bool × List ConnAction :=
  (some newClient, pingOk, [ConnAction.createNew])

/-- `disconnect` of the pooled adapters (for contrast with `connect`): closes
the stored handle when present. -/
def poolDisconnect (pool : Option Nat) :
    Option Nat × Bool × List ConnAction :=
  match pool with
  | some _ => (none, true, [ConnAction.closedOld])
  | none => (none, false, [])

/-! ### The document-store adapter (mongodb.py)

Documents are modelled with scalar top-level fields (the shape all claims
exercise); `MVal.moid` models the backend-internal `ObjectId` handle type,
distinct from every string.  Driver behaviour (`insert_one` generating an
`ObjectId` for a document without `_id`, equality filters, projections,
sort/skip/limit) follows MongoDB documented semantics. -/

/-- A scalar BSON value stored in a document. -/
inductive MVal : Type
  | mstr (s : List Char)
  | mint (n : Int)
  | mbool (b : Bool)
  | mnull
  | moid (n : Nat)
deriving DecidableEq

/-- A stored document: top-level fields. -/
abbrev MDoc : Type := List (List Char × MVal)

/-- A value in a result row handed back by the adapter: a scalar or a list
(for `inserted_ids` / `distinct` values). -/
inductive MRVal : Type
  | scal (v : MVal)
  | list (vs : List MVal)
deriving DecidableEq

/-- One result-row mapping of the document-store adapter. -/
abbrev MRow : Type := List (List Char × MRVal)

/-- The document store: named collections and the driver's next fresh
`ObjectId` (modelled as a counter). -/
structure MongoDB : Type where
  colls : List (List Char × List MDoc)
  nextOid : Nat
deriving DecidableEq

/-- Update an association list at a key, appending when absent. -/
def setAssoc {V : Type} (l : List (List Char × V)) (k : List Char) (v : V) :
    List (List Char × V) :=
  match l with
  | [] => [(k, v)]
  | (k1, v1) :: rest =>
    if k1 = k then (k, v) :: rest else (k1, v1) :: setAssoc rest k v

/-- `self.db[collection_name]`: an unknown collection reads as empty. -/
def getColl (db : MongoDB) (name : List Char) : List MDoc :=
  (lookupParam db.colls name).getD []

/-- Replace a collection's documents. -/
def setColl (db : MongoDB) (name : List Char) (docs : List MDoc) : MongoDB :=
  { db with colls := setAssoc db.colls name docs }

/-- The model `str()` of an `ObjectId` (its hex string in the driver). -/
def oidStr (n : Nat) : List Char := "oid".data ++ natDigits n

/-- Python `str(value)` for the values the adapter stringifies. -/
def pyStrMVal : MVal → List Char
  | MVal.mstr s => s
  | MVal.mint n => (if n < 0 then ("-".data) ++ natDigits n.natAbs else natDigits n.natAbs)
  | MVal.mbool b => if b then ("True".data) else ("False".data)
  | MVal.mnull => "None".data
  | MVal.moid n => oidStr n

/-- MongoDB equality-filter match: every filter field equals the document's
field of the same name. -/
def docMatches (f : List (List Char × MVal)) (d : MDoc) : Bool :=
  f.all (fun kv =>
    match lookupParam d kv.1 with
    | some v => decide (v = kv.2)
    | none => false)

/-- A projection document: field name to include(true)/exclude(false). -/
abbrev MProj : Type := List (List Char × Bool)

/-- MongoDB projection semantics: all-exclusion projections drop the listed
fields; projections with an inclusion keep the included fields plus `_id`
unless `_id` is explicitly excluded. -/
def projApply (p : Option MProj) (d : MDoc) : MDoc :=
  match p with
  | none => d
  | some entries =>
    let excluded : List Char → Bool :=
      fun k => entries.any (fun e => e.1 = k && e.2 = false)
    if (entries.filter (fun e => e.2)).isEmpty then
      d.filter (fun kv => !excluded kv.1)
    else
      d.filter (fun kv =>
        (entries.any (fun e => e.1 = kv.1 && e.2)) ||
          (kv.1 = "_id".data && !excluded kv.1))

/-- Message of the `KeyError` raised by `document['_id']` when the field was
projected away. -/
def keyErrMsg : List Char := "KeyError: _id".data

/-- A document as a result row, fields unchanged. -/
def rowOfDoc (d : MDoc) : MRow := d.map (fun kv => (kv.1, MRVal.scal kv.2))

/-- Overwrite one field of a document in place. -/
def setField (d : MDoc) (k : List Char) (v : MVal) : MDoc :=
  d.map (fun kv => if kv.1 = k then (kv.1, v) else kv)

/-- The unconditional `document['_id'] = str(document['_id'])` of the find
and findOne branches: raises `KeyError` when `_id` is absent. -/
def stringifyId (d : MDoc) : Except (List Char) MRow :=
  match lookupParam d ("_id".data) with
  | none => Except.error keyErrMsg
  | some v =>
    Except.ok (rowOfDoc (setField d ("_id".data) (MVal.mstr (pyStrMVal v))))

/-- The guarded `if '_id' in document:` stringification of the aggregate
branch: never raises. -/
def stringifyIdOpt (d : MDoc) : MRow :=
  match lookupParam d ("_id".data) with
  | none => rowOfDoc d
  | some v => rowOfDoc (setField d ("_id".data) (MVal.mstr (pyStrMVal v)))

/-- Stable insertion into a sorted list. -/
def insertBy {α : Type} (le : α → α → Bool) (x : α) : List α → List α
  | [] => [x]
  | y :: ys => if le x y then x :: y :: ys else y :: insertBy le x ys

/-- Stable insertion sort. -/
def isortBy {α : Type} (le : α → α → Bool) : List α → List α
  | [] => []
  | x :: xs => insertBy le x (isortBy le xs)

/-- Constructor rank for the model's BSON comparison order. -/
def mvalRank : MVal → Nat
  | MVal.mnull => 0
  | MVal.mint _ => 1
  | MVal.mstr _ => 2
  | MVal.mbool _ => 3
  | MVal.moid _ => 4

/-- Lexicographic order on character lists. -/
def strLe : List Char → List Char → Bool
  | [], _ => true
  | _ :: _, [] => false
  | a :: as, b :: bs => if a = b then strLe as bs else decide (a < b)

/-- Model total order on scalar BSON values (rank, then payload). -/
def mvalLe (a b : MVal) : Bool :=
  if mvalRank a = mvalRank b then
    match a, b with
    | MVal.mint x, MVal.mint y => decide (x ≤ y)
    | MVal.mstr x, MVal.mstr y => strLe x y
    | MVal.mbool x, MVal.mbool y => !x || y
    | MVal.moid x, MVal.moid y => decide (x ≤ y)
    | _, _ => true
  else decide (mvalRank a < mvalRank b)

/-- A sort specification: field and ascending flag. -/
abbrev MSort : Type := List Char × Bool

/-- Server-side document sort by one key (missing fields sort as null). -/
def sortDocs (sp : MSort) (ds : List MDoc) : List MDoc :=
  let key : MDoc → MVal := fun d => (lookupParam d sp.1).getD MVal.mnull
  isortBy (fun d1 d2 =>
    if sp.2 then mvalLe (key d1) (key d2) else mvalLe (key d2) (key d1)) ds

/-- Cursor options of a find: the adapter reads `projection`, `limit`,
`skip`, `sort` from the options/args object, defaulting to
`None`/`0`/`0`/`None`, and applies each modifier only when truthy.  The
server applies sort, then skip, then limit, regardless of the call order. -/
structure MCursor : Type where
  projection : Option MProj := none
  limit : Int := 0
  skip : Int := 0
  sort : Option MSort := none

/-- The find branch (mongodb.py lines 161-178 and 98-116): filter, cursor
modifiers, projection, then the unconditional `_id` stringification of each
document in the async-for loop; a `KeyError` there aborts the whole call. -/
def mongoFind (docs : List MDoc) (filter : List (List Char × MVal))
    (c : MCursor) : Except (List Char) (List MRow) :=
  let matched := docs.filter (docMatches filter)
  let sorted := match c.sort with
                | none => matched
                | some sp => sortDocs sp matched
  let afterSkip := if c.skip = 0 then sorted else sorted.drop c.skip.toNat
  let limited := if c.limit = 0 then afterSkip else afterSkip.take c.limit.toNat
  (limited.map (projApply c.projection)).mapM stringifyId

/-- The findOne branch (lines 180-186 and 118-125): first match, projected
server-side, then the `if document:` truthiness check - a falsy result,
i.e. no match or an empty projected document, is skipped and nothing is
appended - and otherwise the unconditional `_id` stringification. -/
def mongoFindOne (docs : List MDoc) (filter : List (List Char × MVal))
    (p : Option MProj) : Except (List Char) (List MRow) :=
  match (docs.filter (docMatches filter)).head? with
  | none => Except.ok []
  | some d =>
    let pd := projApply p d
    if pd.isEmpty then Except.ok []
    else (stringifyId pd).map (fun r => [r])

/-- Skip-duplicates accumulator for `distinct`. -/
def dedupAux (seen : List MVal) : List MVal → List MVal
  | [] => []
  | v :: vs =>
    if seen.contains v then dedupAux seen vs
    else v :: dedupAux (v :: seen) vs

/-- The distinct branch (compact form only, lines 140-145): distinct values
of a field over the matching documents. -/
def mongoDistinct (docs : List MDoc) (field : List Char)
    (filter : List (List Char × MVal)) : List MRow :=
  let vals := (docs.filter (docMatches filter)).filterMap
    (fun d => lookupParam d field)
  [[("values".data, MRVal.list (dedupAux [] vals))]]

/-- The count branch: `{'count': count_documents(filter)}`. -/
def mongoCount (docs : List MDoc) (filter : List (List Char × MVal)) :
    List MRow :=
  [[("count".data, MRVal.scal (MVal.mint (docs.filter (docMatches filter)).length))]]

/-- Driver `insert_one` preparation: a document without `_id` receives the
next fresh `ObjectId`; the inserted identifier is the `_id` value. -/
def insertPrep (next : Nat) (d : MDoc) : MDoc × MVal × Nat :=
  match lookupParam d ("_id".data) with
  | some v => (d, v, next)
  | none => (d ++ [("_id".data, MVal.moid next)], MVal.moid next, next + 1)

/-- Driver `insert_many`: each document prepared in order. -/
def insertManyAux (next : Nat) : List MDoc → List MDoc × List MVal × Nat
  | [] => ([], [], next)
  | d :: ds =>
    let p := insertPrep next d
    let rest := insertManyAux p.2.2 ds
    (p.1 :: rest.1, p.2.1 :: rest.2.1, rest.2.2)

/-- Remove the first matching document (driver `delete_one`). -/
def removeFirst (p : MDoc → Bool) : List MDoc → List MDoc
  | [] => []
  | d :: ds => if p d then ds else d :: removeFirst p ds

/-- The structured query object after `json.loads`: the fields the adapter
reads via `query_obj.get` / `options.get`, with the source defaults already
applied (`operation` defaults to find; options default to none/0/false).
`updateNonempty` is the truthiness of the `update` field;
`pipelineEval` stands for the server's evaluation of the aggregate
pipeline, opaque to the adapter. -/
structure MQuery : Type where
  collection : List Char := []
  operation : List Char := "find".data
  filter : List (List Char × MVal) := []
  projection : Option MProj := none
  limit : Int := 0
  skip : Int := 0
  sort : Option MSort := none
  documents : List MDoc := []
  updateNonempty : Bool := false
  many : Bool := false
  upsert : Bool := false
  pipelineEval : List MDoc → List MDoc := id

/-- Error messages of the mongo adapter's explicit error returns. -/
def noCollectionMsg : List Char := "collection name required".data

/-- Unsupported structured operation message (line 246). -/
def unsupportedOpMsg : List Char := "unsupported operation".data

/-- `update` without an update document (line 215). -/
def updateRequiredMsg : List Char := "update document required".data

/-- Driver `insert_many` on an empty list raises. -/
def emptyInsertMsg : List Char := "InvalidOperation: empty bulk write".data

/-- Invalid compact query format (line 86). -/
def invalidFormatMsg : List Char := "invalid MongoDB query format".data

/-- Invalid JSON in the compact form's argument text (line 93). -/
def invalidArgsJsonMsg : List Char := "invalid query args JSON".data

/-- The structured dispatch of `MongoDBConnector.execute_query`
(lines 149-248): collection check, then the if/elif chain over
find / findOne / aggregate / count / insert / update / delete; any other
operation - including `distinct` - falls to the unsupported-operation
return.  Errors and error-row returns are unified as `Except.error`; the
enclosing try/except turns them into the one-element error row. -/
def mongoStructured (db : MongoDB) (q : MQuery) :
    Except (List Char) (List MRow × MongoDB) :=
  if q.collection.isEmpty then Except.error noCollectionMsg
  else
    let docs := getColl db q.collection
    if q.operation = "find".data then
      (mongoFind docs q.filter
        ⟨q.projection, q.limit, q.skip, q.sort⟩).map (fun rs => (rs, db))
    else if q.operation = "findOne".data then
      (mongoFindOne docs q.filter q.projection).map (fun rs => (rs, db))
    else if q.operation = "aggregate".data then
      Except.ok ((q.pipelineEval docs).map stringifyIdOpt, db)
    else if q.operation = "count".data then
      Except.ok (mongoCount docs q.filter, db)
    else if q.operation = "insert".data then
      match q.documents with
      | [d] =>
        let p := insertPrep db.nextOid d
        Except.ok
          ([[("inserted_id".data, MRVal.scal (MVal.mstr (pyStrMVal p.2.1)))]],
           setColl { db with nextOid := p.2.2 } q.collection (docs ++ [p.1]))
      | ds =>
        if ds.isEmpty then Except.error emptyInsertMsg
        else
          let p := insertManyAux db.nextOid ds
          Except.ok
            ([[("inserted_ids".data,
                MRVal.list (p.2.1.map (fun v => MVal.mstr (pyStrMVal v))))]],
             setColl { db with nextOid := p.2.2 } q.collection (docs ++ p.1))
    else if q.operation = "update".data then
      if !q.updateNonempty then Except.error updateRequiredMsg
      else
        let matchedAll := (docs.filter (docMatches q.filter)).length
        let matched := if q.many then matchedAll else min matchedAll 1
        let upserted : Option MVal :=
          if q.upsert && matchedAll = 0 then some (MVal.moid db.nextOid)
          else none
        Except.ok
          ([[("matched_count".data, MRVal.scal (MVal.mint matched)),
             ("modified_count".data, MRVal.scal (MVal.mint matched)),
             ("upserted_id".data, MRVal.scal
               (match upserted with
                | some v => MVal.mstr (pyStrMVal v)
                | none => MVal.mnull))]], db)
    else if q.operation = "delete".data then
      if q.many then
        let remaining := docs.filter (fun d => !docMatches q.filter d)
        Except.ok
          ([[("deleted_count".data,
              MRVal.scal (MVal.mint (docs.length - remaining.length)))]],
           setColl db q.collection remaining)
      else
        let remaining := removeFirst (docMatches q.filter) docs
        Except.ok
          ([[("deleted_count".data,
              MRVal.scal (MVal.mint (docs.length - remaining.length)))]],
           setColl db q.collection remaining)
    else Except.error unsupportedOpMsg

/-- Parsed argument object of the compact textual form, after `json.loads`
of the text between the parentheses (the accessors of lines 98-145 with the
source defaults applied). -/
structure MArgs : Type where
  filter : List (List Char × MVal) := []
  projection : Option MProj := none
  limit : Int := 0
  skip : Int := 0
  sort : Option MSort := none
  field : List Char := []
  pipelineEval : List MDoc → List MDoc := id

/-- The regex match of the compact textual form (line 84):
`(\w+)\.(find|findOne|aggregate|count|distinct)\((.*)\)` anchored at the
start; alternatives are tried in source order; `(.*)` is greedy, so the
argument text runs to the last closing parenthesis. -/
def parseCompact (s : List Char) : Option (List Char × List Char × List Char) :=
  let cname := s.takeWhile isWordChar
  if cname.isEmpty then none
  else
    match s.drop cname.length with
    | '.' :: rest =>
      let tryOp : List Char → Option (List Char × List Char) := fun o =>
        if (o ++ ['(']).isPrefixOf rest then some (o, rest.drop (o.length + 1))
        else none
      let opRem :=
        (tryOp ("find".data)).orElse (fun _ =>
        (tryOp ("findOne".data)).orElse (fun _ =>
        (tryOp ("aggregate".data)).orElse (fun _ =>
        (tryOp ("count".data)).orElse (fun _ =>
        tryOp ("distinct".data)))))
      match opRem with
      | none => none
      | some (op, rem) =>
        let revAfter := rem.reverse.dropWhile (fun c => !(c = ')'))
        match revAfter with
        | ')' :: revArgs => some (cname, op, revArgs.reverse)
        | _ => none
    | _ => none

/-- The compact textual dispatch (lines 79-147): regex parse, JSON parse of
the argument text (`jp` models `json.loads`), then the if/elif chain over
find / findOne / aggregate / count / distinct. -/
def mongoCompact (db : MongoDB) (s : List Char)
    (jp : List Char → Option MArgs) : Except (List Char) (List MRow) :=
  match parseCompact s with
  | none => Except.error invalidFormatMsg
  | some (cname, op, argsTxt) =>
    match jp argsTxt with
    | none => Except.error invalidArgsJsonMsg
    | some args =>
      let docs := getColl db cname
      if op = "find".data then
        mongoFind docs args.filter ⟨args.projection, args.limit, args.skip, args.sort⟩
      else if op = "findOne".data then
        mongoFindOne docs args.filter args.projection
      else if op = "aggregate".data then
        Except.ok ((args.pipelineEval docs).map stringifyIdOpt)
      else if op = "count".data then
        Except.ok (mongoCount docs args.filter)
      else
        Except.ok (mongoDistinct docs args.field args.filter)

/-- Input to the document-store `execute_query`: a query string that parses
as a JSON object (already shaped), or one that does not and falls to the
compact textual form with its own argument parser. -/
inductive MongoInput : Type
  | structured (q : MQuery)
  | textual (s : List Char) (jp : List Char → Option MArgs)

/-- The one-element error row of the document-store adapter. -/
def mErrorRow (e : List Char) : MRow := [("error".data, MRVal.scal (MVal.mstr e))]

/-- `MongoDBConnector.execute_query` (lines 66-251): every operational path
sits inside one try/except whose handler returns the one-element error row,
so the call always returns (never raises). -/
def mongoExecuteQuery (db : MongoDB) (inp : MongoInput) :
    PyResult (List MRow × MongoDB) :=
  PyResult.ret
    (match inp with
     | MongoInput.structured q =>
       match mongoStructured db q with
       | Except.error e => ([mErrorRow e], db)
       | Except.ok r => r
     | MongoInput.textual s jp =>
       match mongoCompact db s jp with
       | Except.error e => ([mErrorRow e], db)
       | Except.ok rows => (rows, db))

/-- First token of a list blocks name extension (vacuously true when empty). -/
def firstBlocks : List QTok → Bool
  | [] => true
  | t :: _ => headBlocks t

/-- A character list that cannot extend a placeholder name on its left:
empty, or starting with a non-word character. -/
def headNotWord : List Char → Bool
  | [] => true
  | c :: _ => !isWordChar c

/-! ### DSN parsing and the factory (factory.py, constructors of the five
adapters) -/

/-- Python `str.split(sep)` for a one-character separator. -/
def splitOnChar (sep : Char) (s : List Char) : List (List Char) :=
  s.foldr
    (fun c acc =>
      match acc with
      | [] => [[c]]
      | g :: gs => if c = sep then [] :: g :: gs else (c :: g) :: gs)
    [[]]

/-- Value of a run of decimal digits. -/
def digitsVal (ds : List Char) : Nat :=
  ds.foldl (fun a c => a * 10 + (c.toNat - 48)) 0

/-- Python `int(s)` on the strings the DSN parser feeds it: optional sign,
then decimal digits; anything else raises `ValueError` (modelled `none`). -/
def pyIntParse (s : List Char) : Option Int :=
  let t := pyStrip s
  match t with
  | '-' :: ds =>
    if !ds.isEmpty && ds.all Char.isDigit then some (-(digitsVal ds : Int)) else none
  | '+' :: ds =>
    if !ds.isEmpty && ds.all Char.isDigit then some (digitsVal ds : Int) else none
  | ds =>
    if !ds.isEmpty && ds.all Char.isDigit then some (digitsVal ds : Int) else none

/-- Characters allowed after the first letter of a URL scheme. -/
def schemeChar (c : Char) : Bool := c.isAlphanum || c = '+' || c = '-' || c = '.'

/-- The scheme/remainder split of `urllib.parse.urlparse`: the text before
the first colon is the scheme when it is non-empty, starts with a letter and
uses scheme characters only; `urlparse` lowercases it. -/
def schemeSplit (dsn : List Char) : Option (List Char × List Char) :=
  let p := dsn.takeWhile (fun c => !(c = ':'))
  match dsn.drop p.length with
  | ':' :: rest =>
    match p with
    | [] => none
    | c :: _ =>
      if c.isAlpha && p.all schemeChar then some (p.map Char.toLower, rest)
      else none
  | _ => none

/-- `urlparse(dsn).scheme`, as used by `ConnectorFactory.create_connector`
(already lowercase; the factory's extra `.lower()` is idempotent). -/
def schemeOf (dsn : List Char) : List Char :=
  match schemeSplit dsn with
  | some p => p.1
  | none => []

/-- `urlparse(...).path` on the remainder after the scheme colon: with a
`//` authority, the path starts at the next slash; query and fragment are
cut off. -/
def urlPath (rest : List Char) : List Char :=
  if (['/', '/'] : List Char).isPrefixOf rest then
    let after := rest.drop 2
    let auth := after.takeWhile (fun c => !(c = '/' || c = '?' || c = '#'))
    (after.drop auth.length).takeWhile (fun c => !(c = '?' || c = '#'))
  else rest.takeWhile (fun c => !(c = '?' || c = '#'))

/-- Python `str.strip(ch)` for one character. -/
def stripChar (ch : Char) (s : List Char) : List Char :=
  ((s.dropWhile (fun c => c = ch)).reverse.dropWhile (fun c => c = ch)).reverse

/-- Configuration parsed by `MySQLConnector.__init__`. -/
structure MySQLCfg : Type where
  user : List Char
  password : List Char
  host : List Char
  port : Int
  database : List Char
deriving DecidableEq

/-- `MySQLConnector.__init__` (mysql.py lines 12-44): strip every
`mysql://` occurrence, split on `@` (exactly two parts), split user:password
(exactly two parts), split host part on `/` (at least two parts; the second
is the database), optional `:port` with `int(...)`, default port 3306.
Each failed check raises `ValueError`, modelled as `Except.error`. -/
def mysqlParse (dsn : List Char) : Except (List Char) MySQLCfg :=
  let s := replaceAll dsn ("mysql://".data) []
  match splitOnChar '@' s with
  | [userPass, hostDb] =>
    match splitOnChar ':' userPass with
    | [u, p] =>
      let hostParts := splitOnChar '/' hostDb
      if hostParts.length < 2 then Except.error ("host/database malformed".data)
      else
        let hostPort := splitOnChar ':' (hostParts.getD 0 [])
        let db := hostParts.getD 1 []
        if hostPort.length = 2 then
          match pyIntParse (hostPort.getD 1 []) with
          | some port =>
            Except.ok ⟨u, p, hostPort.getD 0 [], port, db⟩
          | none => Except.error ("invalid port".data)
        else Except.ok ⟨u, p, hostPort.getD 0 [], 3306, db⟩
    | _ => Except.error ("user:password malformed".data)
  | _ => Except.error ("mysql DSN malformed".data)

/-- Configuration parsed by `SQLServerConnector.__init__`. -/
structure SSCfg : Type where
  user : List Char
  password : List Char
  host : List Char
  port : List Char
  database : List Char
deriving DecidableEq

/-- `SQLServerConnector.__init__` (sqlserver.py lines 13-40): the regex
`sqlserver://([^:]+):([^@]+)@([^:]+):(\d+)/(.+)` matched from the start;
each character class takes its maximal run followed by the required literal;
`.` does not cross a newline.  Failure raises `ValueError`. -/
def sqlserverParse (dsn : List Char) : Except (List Char) SSCfg :=
  if ("sqlserver://".data).isPrefixOf dsn then
    let r1 := dsn.drop 12
    let g1 := r1.takeWhile (fun c => !(c = ':'))
    match r1.drop g1.length with
    | ':' :: r2 =>
      if g1.isEmpty then Except.error ("sqlserver DSN malformed".data)
      else
        let g2 := r2.takeWhile (fun c => !(c = '@'))
        match r2.drop g2.length with
        | '@' :: r3 =>
          if g2.isEmpty then Except.error ("sqlserver DSN malformed".data)
          else
            let g3 := r3.takeWhile (fun c => !(c = ':'))
            match r3.drop g3.length with
            | ':' :: r4 =>
              if g3.isEmpty then Except.error ("sqlserver DSN malformed".data)
              else
                let g4 := r4.takeWhile Char.isDigit
                match r4.drop g4.length with
                | '/' :: r5 =>
                  if g4.isEmpty then Except.error ("sqlserver DSN malformed".data)
                  else
                    let g5 := r5.takeWhile (fun c => !(c = '\n'))
                    if g5.isEmpty then Except.error ("sqlserver DSN malformed".data)
                    else Except.ok ⟨g1, g2, g3, g4, g5⟩
                | _ => Except.error ("sqlserver DSN malformed".data)
            | _ => Except.error ("sqlserver DSN malformed".data)
        | _ => Except.error ("sqlserver DSN malformed".data)
    | _ => Except.error ("sqlserver DSN malformed".data)
  else Except.error ("sqlserver DSN malformed".data)

/-- `SQLiteConnector.__init__` (sqlite.py lines 13-32): accept
`sqlite:///path` or the in-memory sentinel, then require the file to exist
for a non-memory path (`FileNotFoundError` otherwise).  `fileExists` models
`os.path.exists` - file-system state, no network. -/
def sqliteParse (fileExists : List Char → Bool) (dsn : List Char) :
    Except (List Char) (List Char) :=
  let pathE : Except (List Char) (List Char) :=
    if ("sqlite:///".data).isPrefixOf dsn then Except.ok (dsn.drop 10)
    else if dsn = "sqlite::memory:".data then Except.ok (":memory:".data)
    else Except.error ("sqlite DSN malformed".data)
  match pathE with
  | Except.ok path =>
    if path ≠ ":memory:".data && !fileExists path then
      Except.error ("sqlite database file not found".data)
    else Except.ok path
  | e => e

/-- `MongoDBConnector.__init__` (mongodb.py lines 13-32): scheme must be
`mongodb`, and the URL path stripped of slashes is the database name, which
must be non-empty. -/
def mongoParse (dsn : List Char) : Except (List Char) (List Char) :=
  match schemeSplit dsn with
  | some p =>
    if p.1 = "mongodb".data then
      let db := stripChar '/' (urlPath p.2)
      if db.isEmpty then Except.error ("mongodb database name missing".data)
      else Except.ok db
    else Except.error ("mongodb DSN malformed".data)
  | none => Except.error ("mongodb DSN malformed".data)

/-- A constructed adapter with its parsed configuration. -/
inductive Adapter : Type
  | mysql (cfg : MySQLCfg)
  | postgres (dsn : List Char)
  | sqlite (path : List Char)
  | sqlserver (cfg : SSCfg)
  | mongodb (dsn : List Char) (database : List Char)
deriving DecidableEq

/-- The ten operations of the capability contract (`DatabaseConnector`). -/
def contractOps : List (List Char) :=
  ["connect".data, "disconnect".data, "is_connected".data,
   "execute_query".data, "get_schemas".data, "get_tables".data,
   "get_table_structure".data, "get_indexes".data, "get_procedures".data,
   "get_procedure_details".data]

/-- Methods defined by each adapter class (transcribed from the five
connector modules; the SQLite class additionally defines its row factory). -/
def adapterMethods : Adapter → List (List Char)
  | Adapter.sqlite _ => "_dict_factory".data :: contractOps
  | _ => contractOps

/-- `ConnectorFactory.create_connector` (factory.py lines 16-42): empty DSN
rejected, scheme extracted via `urlparse` and lowercased, dispatched over
the five known schemes - each constructor performing its own synchronous
structural validation - with `ValueError` for anything else.  No network
I/O occurs anywhere in this path (the model is a pure function of the DSN
and the file-system predicate). -/
def create_connector (fileExists : List Char → Bool) (dsn : List Char) :
    Except (List Char) Adapter :=
  if dsn.isEmpty then Except.error ("empty DSN".data)
  else
    let scheme := schemeOf dsn
    if scheme = "mysql".data then (mysqlParse dsn).map Adapter.mysql
    else if scheme = "postgres".data then Except.ok (Adapter.postgres dsn)
    else if scheme = "sqlite".data then
      (sqliteParse fileExists dsn).map Adapter.sqlite
    else if scheme = "sqlserver".data then
      (sqlserverParse dsn).map Adapter.sqlserver
    else if scheme = "mongodb".data then
      (mongoParse dsn).map (Adapter.mongodb dsn)
    else Except.error ("unsupported database type".data)

/-- The DSN schemes the factory recognizes. -/
def recognizedSchemes : List (List Char) :=
  ["mysql".data, "postgres".data, "sqlite".data, "sqlserver".data,
   "mongodb".data]

/-- Whether an `Except` is the error case. -/
def exceptIsErr {ε α : Type} : Except ε α → Bool
  | Except.error _ => true
  | Except.ok _ => false

/-- Whether the backend selected by the scheme rejects the DSN in its
constructor (structural validation). -/
def backendRejects (fileExists : List Char → Bool) (dsn : List Char) : Bool :=
  let scheme := schemeOf dsn
  (scheme = "mysql".data && exceptIsErr (mysqlParse dsn)) ||
  (scheme = "sqlite".data && exceptIsErr (sqliteParse fileExists dsn)) ||
  (scheme = "sqlserver".data && exceptIsErr (sqlserverParse dsn)) ||
  (scheme = "mongodb".data && exceptIsErr (mongoParse dsn))

/-! ### get_table_structure on SQLite (sqlite.py lines 102-120) -/

/-- One row of `PRAGMA table_info(table)`: per SQLite documentation, `pk` is
the 1-based position of the column within the primary key, `0` for columns
not in the primary key. -/
structure PragmaRow : Type where
  cname : List Char
  ctype : List Char
  notnull : Int
  dflt : Option (List Char)
  pk : Int
deriving DecidableEq

/-- A column descriptor as assembled by the adapters. -/
structure ColumnDesc : Type where
  cname : List Char
  ctype : List Char
  nullable : Bool
  key : List Char
  dflt : Option (List Char)
  extra : List Char
deriving DecidableEq

/-- The per-row mapping of `SQLiteConnector.get_table_structure`:
`'key': 'PRI' if row['pk'] == 1 else ''`. -/
def sqliteColumnOf (r : PragmaRow) : ColumnDesc :=
  { cname := r.cname, ctype := r.ctype, nullable := r.notnull = 0,
    key := if r.pk = 1 then ("PRI".data) else [],
    dflt := r.dflt, extra := [] }

/-- `SQLiteConnector.get_table_structure` over the PRAGMA rows (which SQLite
returns in declared column order). -/
def sqliteGetTableStructure (rows : List PragmaRow) : List ColumnDesc :=
  rows.map sqliteColumnOf

/-- Whether a PRAGMA row's column belongs to the table's primary key
(`pk` positive), per SQLite documentation. -/
def pragmaInPK (r : PragmaRow) : Bool := decide (0 < r.pk)

/-! ### The demo adapter (factory.py lines 44-96)

The seeded in-memory SQLite state is transcribed from the DDL executed by
`create_demo_connector`, together with SQLite's documented behaviour: a
column-level `UNIQUE` constraint creates an automatic
`sqlite_autoindex_<table>_<n>` unique index, `INTEGER PRIMARY KEY` aliases
the rowid and creates none, and `PRAGMA index_list` reports explicit indexes
newest-first followed by the automatic ones. -/

/-- An index of the seeded demo database. -/
structure SIndex : Type where
  iname : List Char
  columns : List (List Char)
  unique : Bool
deriving DecidableEq

/-- A table of the seeded demo database. -/
structure STable : Type where
  tname : List Char
  columns : List (List Char)
deriving DecidableEq

/-- The two demo tables, in creation order (factory.py lines 54-72). -/
def demoTables : List STable :=
  [⟨"employees".data,
    ["id".data, "first_name".data, "last_name".data, "email".data,
     "hire_date".data, "department_id".data, "salary".data]⟩,
   ⟨"departments".data, ["id".data, "name".data, "location".data]⟩]

/-- `PRAGMA index_list(employees)` of the seeded database: the two
explicitly created indexes (lines 93-94), newest first, then the automatic
unique index backing `email TEXT UNIQUE`. -/
def demoIndexListEmployees : List SIndex :=
  [⟨"idx_employee_name".data, ["last_name".data, "first_name".data], false⟩,
   ⟨"idx_employee_dept".data, ["department_id".data], false⟩,
   ⟨"sqlite_autoindex_employees_1".data, ["email".data], true⟩]

/-- `SQLiteConnector.get_schemas`: the fixed single `main` schema
(sqlite.py lines 81-83). -/
def demoGetSchemas : List (List Char) := ["main".data]

/-- `SQLiteConnector.get_tables` on the seeded database: table names from
`sqlite_master`, the `sqlite_%` ones filtered out, ordered by name. -/
def demoGetTables : List (List Char) :=
  isortBy strLe
    ((demoTables.map STable.tname).filter
      (fun n => !(("sqlite_".data).isPrefixOf n)))

/-- An index descriptor as assembled by `SQLiteConnector.get_indexes`:
name, uniqueness, and the columns with 1-based order. -/
structure IndexDesc : Type where
  iname : List Char
  unique : Bool
  columns : List (List Char × Nat)
deriving DecidableEq

/-- `SQLiteConnector.get_indexes` (lines 122-147) on the seeded database:
one descriptor per `PRAGMA index_list` row, columns from
`PRAGMA index_info` with `seqno + 1`. -/
def demoGetIndexesEmployees : List IndexDesc :=
  demoIndexListEmployees.map
    (fun i =>
      ⟨i.iname, i.unique,
       (List.range i.columns.length).zipWith
         (fun j c => (c, j + 1)) i.columns⟩)

/-! ### Concrete instances used to witness the general theorems -/

/-- A concrete tokenized query with a repeated parameter name. -/
def qtoksEx : List QTok :=
  [QTok.lit ("UPDATE t SET x = ".data), QTok.par ("a".data),
   QTok.lit (" WHERE y = ".data), QTok.par ("a".data),
   QTok.lit (" + ".data), QTok.par ("b".data)]

/-- A concrete parameter mapping for `qtoksEx`. -/
def paramsEx : List (List Char × Nat) := [("a".data, 1), ("b".data, 2)]

/-- The value function realised by `paramsEx`. -/
def pvEx : List Char → Nat := fun n => if n = "b".data then 2 else 1

/-- A three-document collection used to exercise the document-store
operations. -/
def mdocsEx : List MDoc :=
  [[("_id".data, MVal.moid 1), ("age".data, MVal.mint 30),
    ("name".data, MVal.mstr ("c".data))],
   [("_id".data, MVal.moid 2), ("age".data, MVal.mint 10),
    ("name".data, MVal.mstr ("a".data))],
   [("_id".data, MVal.moid 3), ("age".data, MVal.mint 20),
    ("name".data, MVal.mstr ("b".data))]]

/-- A concrete document store holding `mdocsEx` under `users`. -/
def mdbEx : MongoDB := ⟨[("users".data, mdocsEx)], 50⟩

/-- Python `old in s` on character lists (substring test). -/
def isSubstring (needle hay : List Char) : Bool :=
  match hay with
  | [] => needle.isEmpty
  | _ :: rest => needle.isPrefixOf hay || isSubstring needle rest

/-! ### Helper lemmas -/

theorem word_ne_colon {c : Char} (h : isWordChar c = true) : c ≠ ':' := by
  intro he; subst he; exact absurd h (by decide)

theorem litCharOk_ne_colon {c : Char} (h : litCharOk c = true) : c ≠ ':' := by
  simp only [litCharOk, Bool.and_eq_true, decide_eq_true_eq] at h
  exact h.1.1

theorem litCharOk_ne_qmark {c : Char} (h : litCharOk c = true) : c ≠ '?' := by
  simp only [litCharOk, Bool.and_eq_true, decide_eq_true_eq] at h
  exact h.2

theorem takeWhile_all_append {s x : List Char} (hs : s.all isWordChar = true)
    (hx : headNotWord x = true) : (s ++ x).takeWhile isWordChar = s := by
  induction s with
  | nil =>
    simp only [List.nil_append]
    cases x with
    | nil => rfl
    | cons c cs =>
      simp only [headNotWord, Bool.not_eq_true'] at hx
      simp [List.takeWhile, hx]
  | cons a s ih =>
    simp only [List.all_cons, Bool.and_eq_true] at hs
    simp [List.takeWhile, hs.1, ih hs.2]

theorem findNamed_nil : findNamed [] = [] := by simp [findNamed]

theorem findNamed_cons (c : Char) (rest : List Char) :
    findNamed (c :: rest) =
      if c = ':' then
        let name := rest.takeWhile isWordChar
        if name.isEmpty then findNamed rest
        else name :: findNamed (rest.drop name.length)
      else findNamed rest := by
  rw [findNamed]

theorem findNamed_append_nocolon {s : List Char} (x : List Char)
    (hs : ∀ c ∈ s, c ≠ ':') : findNamed (s ++ x) = findNamed x := by
  induction s with
  | nil => rfl
  | cons a s ih =>
    have ha : a ≠ ':' := hs a (by simp)
    rw [List.cons_append, findNamed_cons, if_neg ha]
    exact ih (fun c hc => hs c (by simp [hc]))

theorem replaceAll_nil (old new : List Char) : replaceAll [] old new = [] := by
  rw [replaceAll]
  split <;> rfl

theorem replaceAll_cons_pos {c : Char} {rest old : List Char} (new : List Char)
    (h0 : old.length ≠ 0) (hpre : old.isPrefixOf (c :: rest) = true) :
    replaceAll (c :: rest) old new
      = new ++ replaceAll ((c :: rest).drop old.length) old new := by
  rw [replaceAll]
  simp [h0, hpre]

theorem replaceAll_cons_neg {c : Char} {rest old : List Char} (new : List Char)
    (h0 : old.length ≠ 0) (hpre : old.isPrefixOf (c :: rest) = false) :
    replaceAll (c :: rest) old new = c :: replaceAll rest old new := by
  rw [replaceAll]
  simp [h0, hpre]

theorem isPrefixOf_cons_cons (a b : Char) (as bs : List Char) :
    (a :: as).isPrefixOf (b :: bs) = (a == b && as.isPrefixOf bs) := rfl

theorem isPrefixOf_self_append (n x : List Char) :
    n.isPrefixOf (n ++ x) = true := by
  induction n with
  | nil => simp [List.isPrefixOf]
  | cons a as ih => simp [isPrefixOf_cons_cons, ih]

theorem isPrefixOf_self (n : List Char) : n.isPrefixOf n = true := by
  induction n with
  | nil => simp [List.isPrefixOf]
  | cons a as ih => simp [isPrefixOf_cons_cons, ih]

theorem replaceAll_append_nocolon {s : List Char} (x n new : List Char)
    (hs : ∀ c ∈ s, c ≠ ':') :
    replaceAll (s ++ x) (':' :: n) new = s ++ replaceAll x (':' :: n) new := by
  induction s with
  | nil => rfl
  | cons a s ih =>
    have ha : a ≠ ':' := hs a (by simp)
    have hca : (':' == a) = false := by
      rw [beq_eq_false_iff_ne]; exact fun h => ha h.symm
    have hpre : (':' :: n).isPrefixOf (a :: (s ++ x)) = false := by
      rw [isPrefixOf_cons_cons, hca, Bool.false_and]
    rw [List.cons_append, replaceAll_cons_neg new (by simp) hpre,
      ih (fun c hc => hs c (by simp [hc])), List.cons_append]

theorem not_prefix_of_blocked {n m X : List Char} (hn : n.all isWordChar = true)
    (hnm : n.isPrefixOf m = false) (hX : headNotWord X = true) :
    n.isPrefixOf (m ++ X) = false := by
  induction n generalizing m with
  | nil => simp [List.isPrefixOf] at hnm
  | cons a n ih =>
    simp only [List.all_cons, Bool.and_eq_true] at hn
    cases m with
    | nil =>
      cases X with
      | nil => rfl
      | cons c cs =>
        simp only [headNotWord, Bool.not_eq_true'] at hX
        have hac : (a == c) = false := by
          rw [beq_eq_false_iff_ne]
          intro he
          rw [he, hX] at hn
          exact Bool.noConfusion hn.1
        simp [isPrefixOf_cons_cons, hac]
    | cons b m =>
      simp only [List.cons_append, isPrefixOf_cons_cons] at hnm ⊢
      cases hab : (a == b) with
      | false => simp [hab]
      | true =>
        simp only [hab, Bool.true_and] at hnm ⊢
        exact ih hn.2 hnm

/-! ### Well-formedness decomposition -/

theorem wfToks_tokWf {t : QTok} {ts : List QTok} (h : wfToks (t :: ts) = true) :
    tokWf t = true := by
  simp only [wfToks, List.all_cons, Bool.and_eq_true] at h
  exact h.1.1

theorem seps_tail {t : QTok} {ts : List QTok} (h : seps (t :: ts) = true) :
    seps ts = true := by
  cases t with
  | lit s => exact h
  | par n =>
    cases ts with
    | nil => rfl
    | cons t' ts' =>
      simp only [seps, Bool.and_eq_true] at h
      exact h.2

theorem wfToks_tail {t : QTok} {ts : List QTok} (h : wfToks (t :: ts) = true) :
    wfToks ts = true := by
  simp only [wfToks, List.all_cons, Bool.and_eq_true] at h ⊢
  exact ⟨h.1.2, seps_tail h.2⟩

theorem wfToks_par_firstBlocks {n : List Char} {ts : List QTok}
    (h : wfToks (QTok.par n :: ts) = true) : firstBlocks ts = true := by
  simp only [wfToks, Bool.and_eq_true] at h
  cases ts with
  | nil => rfl
  | cons t' ts' =>
    have := h.2
    simp only [seps, Bool.and_eq_true] at this
    exact this.1

theorem mem_parNames {m : List Char} {ts : List QTok} :
    m ∈ parNames ts ↔ QTok.par m ∈ ts := by
  induction ts with
  | nil => simp [parNames]
  | cons t ts ih =>
    cases t with
    | lit s => simp [parNames, ih]
    | par n => simp [parNames, ih, List.mem_cons]

theorem parNames_parOk {ts : List QTok} (hwf : wfToks ts = true) :
    ∀ n ∈ parNames ts, (!n.isEmpty && n.all isWordChar) = true := by
  intro n hn
  have hmem : QTok.par n ∈ ts := mem_parNames.mp hn
  have hall : ts.all tokWf = true := by
    simp only [wfToks, Bool.and_eq_true] at hwf; exact hwf.1
  have := List.all_eq_true.mp hall _ hmem
  simpa [tokWf] using this

/-! ### Rendering and substitution -/

theorem applySubF_nil_sub (ts : List QTok) : applySubF subNone ts = ts := by
  induction ts with
  | nil => rfl
  | cons t ts ih =>
    cases t with
    | lit s => simp [applySubF, ih]
    | par n => simp [applySubF, subNone, ih]

theorem applySubF_congr {σ₁ σ₂ : Sub} {ts : List QTok}
    (h : ∀ m, QTok.par m ∈ ts → σ₁ m = σ₂ m) :
    applySubF σ₁ ts = applySubF σ₂ ts := by
  induction ts with
  | nil => rfl
  | cons t ts ih =>
    cases t with
    | lit s =>
      simp only [applySubF]
      rw [ih (fun m hm => h m (by simp [hm]))]
    | par n =>
      simp only [applySubF]
      rw [h n (by simp), ih (fun m hm => h m (by simp [hm]))]

theorem headNotWord_render {σ : Sub} {ts : List QTok} (hσ : subOk σ)
    (hb : firstBlocks ts = true) :
    headNotWord (render (applySubF σ ts)) = true := by
  cases ts with
  | nil => rfl
  | cons t ts =>
    cases t with
    | lit s =>
      cases s with
      | nil => exact absurd hb (by simp [firstBlocks, headBlocks])
      | cons c cs =>
        simp only [firstBlocks, headBlocks] at hb
        simpa [applySubF, render, headNotWord] using hb
    | par n =>
      simp only [applySubF]
      cases hσn : σ n with
      | none =>
        simp only [render, headNotWord, Bool.not_eq_true']
        decide
      | some r =>
        have hr := hσ n r hσn
        simp only [replOk, Bool.and_eq_true] at hr
        cases r with
        | nil => exact absurd hr.1 (by simp)
        | cons c cs =>
          simp only at hr
          simpa [render, headNotWord] using hr.1

theorem findNamed_render {ts : List QTok} (hwf : wfToks ts = true) :
    findNamed (render ts) = parNames ts := by
  induction ts with
  | nil => simp [render, parNames, findNamed_nil]
  | cons t ts ih =>
    cases t with
    | lit s =>
      have hs : ∀ c ∈ s, c ≠ ':' := by
        intro c hc
        have := wfToks_tokWf hwf
        simp only [tokWf] at this
        exact litCharOk_ne_colon (List.all_eq_true.mp this c hc)
      simp only [render, parNames]
      rw [findNamed_append_nocolon _ hs, ih (wfToks_tail hwf)]
    | par n =>
      have htw := wfToks_tokWf hwf
      simp only [tokWf, Bool.and_eq_true] at htw
      have hhead : headNotWord (render ts) = true := by
        have := headNotWord_render (σ := subNone) (fun m r h => by simp [subNone] at h)
          (wfToks_par_firstBlocks hwf)
        rwa [applySubF_nil_sub] at this
      have htake : (n ++ render ts).takeWhile isWordChar = n :=
        takeWhile_all_append htw.2 hhead
      simp only [render, parNames]
      rw [findNamed_cons]
      simp only [if_pos rfl, htake]
      have hne : n.isEmpty = false := by
        cases n with
        | nil => exact absurd htw.1 (by simp)
        | cons a as => rfl
      simp only [hne, Bool.false_eq_true, if_false]
      simp [List.drop_left, ih (wfToks_tail hwf)]

/-! ### One replacement step over the token view -/

theorem replOk_chars {r : List Char} (hr : replOk r = true) : ∀ c ∈ r, c ≠ ':' := by
  simp only [replOk, Bool.and_eq_true] at hr
  intro c hc
  have := List.all_eq_true.mp hr.2 c hc
  simpa using this

theorem parOk_chars {n : List Char}
    (hn : (!n.isEmpty && n.all isWordChar) = true) : ∀ c ∈ n, c ≠ ':' := by
  simp only [Bool.and_eq_true] at hn
  intro c hc
  exact word_ne_colon (List.all_eq_true.mp hn.2 c hc)

theorem replaceAll_render {ts : List QTok} {σ : Sub} {n r : List Char}
    (hwf : wfToks ts = true) (hσ : subOk σ)
    (hn : (!n.isEmpty && n.all isWordChar) = true)
    (hfresh : σ n = none)
    (hclash : ∀ m, QTok.par m ∈ ts → σ m = none → n.isPrefixOf m = true → m = n) :
    replaceAll (render (applySubF σ ts)) (':' :: n) r
      = render (applySubF (subUpd σ n r) ts) := by
  induction ts with
  | nil => simp [applySubF, render, replaceAll_nil]
  | cons t ts ih =>
    have ihts := ih (wfToks_tail hwf)
      (fun m hm => hclash m (by simp [hm]))
    cases t with
    | lit s =>
      have hs : ∀ c ∈ s, c ≠ ':' := by
        intro c hc
        have := wfToks_tokWf hwf
        simp only [tokWf] at this
        exact litCharOk_ne_colon (List.all_eq_true.mp this c hc)
      simp only [applySubF, render]
      rw [replaceAll_append_nocolon _ _ _ hs, ihts]
    | par m =>
      cases hσm : σ m with
      | some rm =>
        have hmn : m ≠ n := by
          intro he; rw [he, hfresh] at hσm; cases hσm
        have hrm : ∀ c ∈ rm, c ≠ ':' := replOk_chars (hσ m rm hσm)
        simp only [applySubF, hσm, render]
        rw [replaceAll_append_nocolon _ _ _ hrm, ihts]
        simp [subUpd, hmn, hσm, render]
      | none =>
        have hbl : headNotWord (render (applySubF σ ts)) = true :=
          headNotWord_render hσ (wfToks_par_firstBlocks hwf)
        cases hp : n.isPrefixOf m with
        | true =>
          have hmn : m = n := hclash m (by simp) hσm hp
          subst hmn
          simp only [applySubF, hσm, render]
          have hpre : (':' :: m).isPrefixOf
              (':' :: (m ++ render (applySubF σ ts))) = true := by
            rw [isPrefixOf_cons_cons]
            simp [isPrefixOf_self_append]
          rw [replaceAll_cons_pos r (by simp) hpre]
          have hdrop : (':' :: (m ++ render (applySubF σ ts))).drop
              (':' :: m).length = render (applySubF σ ts) := by
            simp only [List.length_cons, List.drop_succ_cons]
            exact List.drop_left m _
          rw [hdrop, ihts]
          simp [subUpd, render]
        | false =>
          have hmn : m ≠ n := by
            intro he; rw [he, isPrefixOf_self] at hp; cases hp
          have hnw : n.all isWordChar = true := by
            simp only [Bool.and_eq_true] at hn; exact hn.2
          have hnp : n.isPrefixOf (m ++ render (applySubF σ ts)) = false :=
            not_prefix_of_blocked hnw hp hbl
          have hpre : (':' :: n).isPrefixOf
              (':' :: (m ++ render (applySubF σ ts))) = false := by
            rw [isPrefixOf_cons_cons, hnp]
            simp
          have hmw : ∀ c ∈ m, c ≠ ':' := by
            have htw := wfToks_tokWf hwf
            simp only [tokWf] at htw
            exact parOk_chars htw
          simp only [applySubF, hσm, render]
          rw [replaceAll_cons_neg r (by simp) hpre,
            replaceAll_append_nocolon _ _ _ hmw, ihts]
          simp [subUpd, hmn, hσm, render]

theorem replaceAll_render_noop {ts : List QTok} {σ : Sub} {n r : List Char}
    (hwf : wfToks ts = true) (hσ : subOk σ)
    (hn : (!n.isEmpty && n.all isWordChar) = true)
    (hclash : ∀ m, QTok.par m ∈ ts → σ m = none → n.isPrefixOf m = true → False) :
    replaceAll (render (applySubF σ ts)) (':' :: n) r
      = render (applySubF σ ts) := by
  induction ts with
  | nil => simp [applySubF, render, replaceAll_nil]
  | cons t ts ih =>
    have ihts := ih (wfToks_tail hwf)
      (fun m hm => hclash m (by simp [hm]))
    cases t with
    | lit s =>
      have hs : ∀ c ∈ s, c ≠ ':' := by
        intro c hc
        have := wfToks_tokWf hwf
        simp only [tokWf] at this
        exact litCharOk_ne_colon (List.all_eq_true.mp this c hc)
      simp only [applySubF, render]
      rw [replaceAll_append_nocolon _ _ _ hs, ihts]
    | par m =>
      cases hσm : σ m with
      | some rm =>
        have hrm : ∀ c ∈ rm, c ≠ ':' := replOk_chars (hσ m rm hσm)
        simp only [applySubF, hσm, render]
        rw [replaceAll_append_nocolon _ _ _ hrm, ihts]
      | none =>
        have hbl : headNotWord (render (applySubF σ ts)) = true :=
          headNotWord_render hσ (wfToks_par_firstBlocks hwf)
        cases hp : n.isPrefixOf m with
        | true => exact absurd (hclash m (by simp) hσm hp) (by simp)
        | false =>
          have hnw : n.all isWordChar = true := by
            simp only [Bool.and_eq_true] at hn; exact hn.2
          have hnp : n.isPrefixOf (m ++ render (applySubF σ ts)) = false :=
            not_prefix_of_blocked hnw hp hbl
          have hpre : (':' :: n).isPrefixOf
              (':' :: (m ++ render (applySubF σ ts))) = false := by
            rw [isPrefixOf_cons_cons, hnp]
            simp
          have hmw : ∀ c ∈ m, c ≠ ':' := by
            have htw := wfToks_tokWf hwf
            simp only [tokWf] at htw
            exact parOk_chars htw
          simp only [applySubF, hσm, render]
          rw [replaceAll_cons_neg r (by simp) hpre,
            replaceAll_append_nocolon _ _ _ hmw, ihts]

/-! ### Characters of decimal digit strings -/

theorem digitChar_ne_colon (d : Nat) (h : d < 10) : digitChar d ≠ ':' := by
  interval_cases d <;> decide

theorem natDigitsGo_chars (fuel : Nat) : ∀ (n : Nat) (acc : List Char),
    (∀ c ∈ acc, c ≠ ':') → ∀ c ∈ natDigitsGo fuel n acc, c ≠ ':' := by
  induction fuel with
  | zero =>
    intro n acc hacc
    rw [natDigitsGo]
    exact hacc
  | succ f ih =>
    intro n acc hacc
    match n with
    | 0 =>
      rw [natDigitsGo]
      exact hacc
    | Nat.succ m =>
      rw [natDigitsGo]
      apply ih
      intro c hc
      rcases List.mem_cons.mp hc with h | h
      · rw [h]
        exact digitChar_ne_colon _ (Nat.mod_lt _ (by omega))
      · exact hacc c h

theorem natDigits_chars (n : Nat) : ∀ c ∈ natDigits n, c ≠ ':' := by
  rw [natDigits]
  split
  · intro c hc
    simp only [List.mem_singleton] at hc
    rw [hc]; decide
  · exact natDigitsGo_chars n n [] (by simp)

theorem dollarTok_replOk (i : Nat) : replOk (dollarTok i) = true := by
  simp only [replOk, dollarTok, Bool.and_eq_true, List.all_cons]
  refine ⟨by decide, by decide, ?_⟩
  rw [List.all_eq_true]
  intro c hc
  simpa using natDigits_chars i c hc

theorem qmark_replOk : replOk ['?'] = true := by decide

/-! ### The PostgreSQL rewriting loop on distinct, prefix-free names -/

theorem idxSub_not_mem {n : List Char} {ns : List (List Char)} {i : Nat}
    (h : n ∉ ns) : idxSub i ns n = none := by
  induction ns generalizing i with
  | nil => rfl
  | cons m ms ih =>
    have hnm : n ≠ m := fun he => h (by simp [he])
    simp only [idxSub, if_neg hnm]
    exact ih (fun hm => h (by simp [hm])) (i := i + 1)

theorem subOk_upd {σ : Sub} {n r : List Char} (hσ : subOk σ)
    (hr : replOk r = true) : subOk (subUpd σ n r) := by
  intro m rm hm
  simp only [subUpd] at hm
  by_cases hmn : m = n
  · rw [if_pos hmn] at hm
    cases hm; exact hr
  · rw [if_neg hmn] at hm
    exact hσ m rm hm

theorem pgAux_render (ns : List (List Char)) {σ : Sub} {ts : List QTok} {i : Nat}
    (hwf : wfToks ts = true) (hσ : subOk σ)
    (hns : ∀ n ∈ ns, (!n.isEmpty && n.all isWordChar) = true)
    (hnodup : ns.Nodup)
    (hfresh : ∀ n ∈ ns, σ n = none)
    (hclash : ∀ n ∈ ns, ∀ m, QTok.par m ∈ ts → n.isPrefixOf m = true → m = n) :
    pgRewriteAux i ns (render (applySubF σ ts))
      = render (applySubF (subOver (idxSub i ns) σ) ts) := by
  induction ns generalizing i σ with
  | nil =>
    simp only [pgRewriteAux]
    exact congrArg render
      (applySubF_congr (fun m _ => by simp [subOver, idxSub])).symm
  | cons n ns ih =>
    simp only [pgRewriteAux]
    rw [replaceAll_render hwf hσ (hns n (by simp)) (hfresh n (by simp))
      (fun m hm _ hp => hclash n (by simp) m hm hp)]
    have hnodup' := (List.nodup_cons.mp hnodup).2
    have hnmem : n ∉ ns := (List.nodup_cons.mp hnodup).1
    rw [ih (subOk_upd hσ (dollarTok_replOk i))
      (fun n' hn' => hns n' (by simp [hn']))
      hnodup'
      (fun n' hn' => by
        have hne : n' ≠ n := fun he => hnmem (he ▸ hn')
        simp only [subUpd, if_neg hne]
        exact hfresh n' (by simp [hn']))
      (fun n' hn' => hclash n' (by simp [hn']))]
    apply congrArg render
    apply applySubF_congr
    intro m _
    by_cases hmn : m = n
    · subst hmn
      simp [subOver, idxSub, subUpd, idxSub_not_mem hnmem]
    · simp only [subOver, idxSub, if_neg hmn, subUpd]

theorem applySubF_idxSub_pgNumber {ts : List QTok} {i : Nat}
    (hnodup : (parNames ts).Nodup) :
    applySubF (idxSub i (parNames ts)) ts = pgNumber i ts := by
  induction ts generalizing i with
  | nil => rfl
  | cons t ts ih =>
    cases t with
    | lit s =>
      simp only [applySubF, pgNumber, parNames] at *
      rw [ih hnodup]
    | par n =>
      simp only [parNames] at hnodup
      have hnmem : n ∉ parNames ts := (List.nodup_cons.mp hnodup).1
      have hnodup' := (List.nodup_cons.mp hnodup).2
      have hcongr : applySubF (idxSub i (n :: parNames ts)) ts
          = applySubF (idxSub (i + 1) (parNames ts)) ts := by
        apply applySubF_congr
        intro m hm
        have hmn : m ≠ n := by
          intro he
          exact hnmem (he ▸ mem_parNames.mpr hm)
        simp [idxSub, if_neg hmn]
      have head : idxSub i (n :: parNames ts) n = some (dollarTok i) := by
        simp [idxSub]
      simp only [applySubF, pgNumber, parNames]
      rw [head, hcongr, ih hnodup']

theorem pg_rewrite_general {ts : List QTok} (hwf : wfToks ts = true)
    (hnodup : (parNames ts).Nodup)
    (hpf : prefixFreeB (parNames ts) = true) :
    pgRewriteQuery (render ts) = render (pgNumber 1 ts) := by
  rw [pgRewriteQuery, findNamed_render hwf]
  have hmain := pgAux_render (σ := subNone) (i := 1) (parNames ts) hwf
    (fun m r h => by simp [subNone] at h)
    (parNames_parOk hwf) hnodup
    (fun n _ => rfl)
    (fun n hn m hm hp => by
      have hm' : m ∈ parNames ts := mem_parNames.mpr hm
      have := List.all_eq_true.mp (List.all_eq_true.mp hpf n hn) m hm'
      simp only [Bool.or_eq_true, Bool.not_eq_true', decide_eq_true_eq] at this
      rcases this with h | h
      · rw [hp] at h; cases h
      · exact h.symm)
  rw [applySubF_nil_sub] at hmain
  rw [hmain]
  have hsub : applySubF (subOver (idxSub 1 (parNames ts)) subNone) ts
      = applySubF (idxSub 1 (parNames ts)) ts := by
    apply applySubF_congr
    intro m _
    simp only [subOver, subNone]
    cases idxSub 1 (parNames ts) m with
    | some r => rfl
    | none => rfl
  rw [hsub, applySubF_idxSub_pgNumber hnodup]

/-! ### The SQL Server rewriting loop, repeats allowed -/

theorem ssAux_render (ns : List (List Char)) {σ : Sub} {ts : List QTok}
    (hwf : wfToks ts = true) (hσ : subOk σ)
    (hns : ∀ n ∈ ns, (!n.isEmpty && n.all isWordChar) = true)
    (hrange : ∀ m, σ m = none ∨ σ m = some ['?'])
    (hclash : ∀ n ∈ ns, ∀ m, QTok.par m ∈ ts → n.isPrefixOf m = true → m = n) :
    ssRewriteAux ns (render (applySubF σ ts))
      = render (applySubF (subOver (memSub ns) σ) ts) := by
  induction ns generalizing σ with
  | nil =>
    simp only [ssRewriteAux]
    exact congrArg render
      (applySubF_congr (fun m _ => by simp [subOver, memSub])).symm
  | cons n ns ih =>
    simp only [ssRewriteAux]
    cases hσn : σ n with
    | none =>
      rw [replaceAll_render hwf hσ (hns n (by simp)) hσn
        (fun m hm _ hp => hclash n (by simp) m hm hp)]
      rw [ih (subOk_upd hσ qmark_replOk)
        (fun n' hn' => hns n' (by simp [hn']))
        (fun m => by
          simp only [subUpd]
          by_cases hmn : m = n
          · simp [hmn]
          · simp only [if_neg hmn]
            exact hrange m)
        (fun n' hn' => hclash n' (by simp [hn']))]
      apply congrArg render
      apply applySubF_congr
      intro m _
      simp only [subOver, memSub, subUpd, List.mem_cons]
      by_cases hc : m ∈ ns
      · simp [hc]
      · by_cases hmn : m = n
        · simp only [hmn]
          by_cases hn2 : n ∈ ns <;> simp [hn2]
        · simp [hmn, hc]
    | some r =>
      have hrq : r = ['?'] := by
        rcases hrange n with h | h
        · rw [hσn] at h; cases h
        · rw [hσn] at h; exact Option.some_injective _ h
      subst hrq
      rw [replaceAll_render_noop hwf hσ (hns n (by simp))
        (fun m hm hmnone hp => by
          have := hclash n (by simp) m hm hp
          rw [this, hσn] at hmnone
          cases hmnone)]
      rw [ih hσ (fun n' hn' => hns n' (by simp [hn'])) hrange
        (fun n' hn' => hclash n' (by simp [hn']))]
      apply congrArg render
      apply applySubF_congr
      intro m _
      simp only [subOver, memSub, List.mem_cons]
      by_cases hc : m ∈ ns
      · simp [hc]
      · by_cases hmn : m = n
        · subst hmn
          simp only [hσn]
          by_cases hn2 : m ∈ ns <;> simp [hn2]
        · simp [hmn, hc]

theorem applySubF_memSub_ssMap {NS : List (List Char)} {ts : List QTok}
    (h : ∀ m, QTok.par m ∈ ts → m ∈ NS) :
    applySubF (memSub NS) ts = ssMap ts := by
  induction ts with
  | nil => rfl
  | cons t ts ih =>
    cases t with
    | lit s =>
      simp only [applySubF, ssMap]
      rw [ih (fun m hm => h m (by simp [hm]))]
    | par n =>
      simp only [applySubF, ssMap, memSub, if_pos (h n (by simp))]
      rw [ih (fun m hm => h m (by simp [hm]))]

theorem ss_rewrite_general {ts : List QTok} (hwf : wfToks ts = true)
    (hpf : prefixFreeB (parNames ts) = true) :
    ssRewriteQuery (render ts) = render (ssMap ts) := by
  rw [ssRewriteQuery, findNamed_render hwf]
  have hmain := ssAux_render (σ := subNone) (parNames ts) hwf
    (fun m r h => by simp [subNone] at h)
    (parNames_parOk hwf)
    (fun m => Or.inl rfl)
    (fun n hn m hm hp => by
      have hm' : m ∈ parNames ts := mem_parNames.mpr hm
      have := List.all_eq_true.mp (List.all_eq_true.mp hpf n hn) m hm'
      simp only [Bool.or_eq_true, Bool.not_eq_true', decide_eq_true_eq] at this
      rcases this with h | h
      · rw [hp] at h; cases h
      · exact h.symm)
  rw [applySubF_nil_sub] at hmain
  rw [hmain]
  have hsub : applySubF (subOver (memSub (parNames ts)) subNone) ts
      = applySubF (memSub (parNames ts)) ts := by
    apply applySubF_congr
    intro m _
    simp only [subOver, subNone, memSub]
    by_cases hc : m ∈ parNames ts
    · simp [hc]
    · simp [hc]
  rw [hsub, applySubF_memSub_ssMap (fun m hm => mem_parNames.mpr hm)]

/-! ### Placeholder counting and argument lists -/

theorem count_qmark_render_ssMap {ts : List QTok} (hwf : ts.all tokWf = true) :
    (render (ssMap ts)).count '?' = (parNames ts).length := by
  induction ts with
  | nil => rfl
  | cons t ts ih =>
    simp only [List.all_cons, Bool.and_eq_true] at hwf
    cases t with
    | lit s =>
      simp only [ssMap, render, parNames, List.count_append]
      have hzero : s.count '?' = 0 := by
        rw [List.count_eq_zero]
        intro hmem
        have := List.all_eq_true.mp hwf.1 _ hmem
        exact litCharOk_ne_qmark this rfl
      rw [hzero, ih hwf.2, Nat.zero_add]
    | par n =>
      simp only [ssMap, render, parNames, List.singleton_append, List.count_cons,
        List.length_cons, ih hwf.2]
      simp

theorem mapM_option_eq_map {α β : Type} (l : List α) (f : α → Option β)
    (g : α → β) (h : ∀ a ∈ l, f a = some (g a)) :
    l.mapM f = some (l.map g) := by
  induction l with
  | nil => rfl
  | cons a l ih =>
    rw [List.mapM_cons, h a (by simp), ih (fun x hx => h x (by simp [hx]))]
    rfl

theorem paramValues_render {V : Type} {ts : List QTok}
    {ps : List (List Char × V)} {pv : List Char → V}
    (hwf : wfToks ts = true)
    (hpv : ∀ n ∈ parNames ts, lookupParam ps n = some (pv n)) :
    paramValues ps (render ts) = some ((parNames ts).map pv) := by
  rw [paramValues, findNamed_render hwf]
  exact mapM_option_eq_map _ _ _ hpv


/-! ### Association-list and projection lemmas for the document store -/

theorem lookupParam_none_iff {V : Type} {l : List (List Char × V)}
    {k : List Char} :
    lookupParam l k = none ↔ ∀ kv ∈ l, kv.1 ≠ k := by
  induction l with
  | nil => simp [lookupParam]
  | cons kv l ih =>
    obtain ⟨k1, v1⟩ := kv
    simp only [lookupParam]
    by_cases h : k1 = k
    · constructor
      · intro hnone
        rw [if_pos h] at hnone
        cases hnone
      · intro hall
        exact absurd h (hall (k1, v1) (List.mem_cons_self _ _))
    · rw [if_neg h, ih]
      constructor
      · intro hall kv hkv
        rcases List.mem_cons.mp hkv with he | hm
        · rw [he]
          exact h
        · exact hall kv hm
      · intro hall kv hkv
        exact hall kv (List.mem_cons_of_mem _ hkv)

theorem lookupParam_append_single {V : Type} {d : List (List Char × V)}
    {k : List Char} (h : lookupParam d k = none) (v : V) :
    lookupParam (d ++ [(k, v)]) k = some v := by
  induction d with
  | nil => simp [lookupParam]
  | cons kv d ih =>
    obtain ⟨k1, v1⟩ := kv
    simp only [lookupParam] at h
    by_cases hk : k1 = k
    · rw [if_pos hk] at h
      cases h
    · rw [if_neg hk] at h
      rw [List.cons_append]
      simp only [lookupParam, if_neg hk]
      exact ih h

theorem lookupParam_filter_excl {V : Type} (l : List (List Char × V))
    (k : List Char) (p : List Char × V → Bool)
    (hp : ∀ kv, p kv = true → kv.1 ≠ k) :
    lookupParam (l.filter p) k = none := by
  induction l with
  | nil => rfl
  | cons kv l ih =>
    rw [List.filter_cons]
    by_cases hpkv : p kv = true
    · obtain ⟨k1, v1⟩ := kv
      simp only [hpkv, if_true, lookupParam]
      rw [if_neg (hp (k1, v1) hpkv), ih]
    · simp only [Bool.not_eq_true] at hpkv
      simp [hpkv, ih]

theorem setField_append_notpresent {d : MDoc} {k : List Char}
    (h : lookupParam d k = none) (v0 v : MVal) :
    setField (d ++ [(k, v0)]) k v = d ++ [(k, v)] := by
  have hall := lookupParam_none_iff.mp h
  rw [setField, List.map_append]
  congr 1
  · have hcongr : ∀ kv ∈ d,
        (fun kv : List Char × MVal =>
          if kv.1 = k then (kv.1, v) else kv) kv = kv := by
      intro kv hkv
      simp [hall kv hkv]
    rw [List.map_congr_left hcongr]
    exact List.map_id' d
  · simp

theorem projApply_excl_id (d : MDoc) :
    lookupParam (projApply (some [("_id".data, false)]) d)
      ("_id".data) = none := by
  have hred : projApply (some [("_id".data, false)]) d
      = d.filter (fun kv =>
          !([(("_id".data : List Char), false)].any
              (fun e => e.1 = kv.1 && e.2 = false))) := rfl
  rw [hred]
  apply lookupParam_filter_excl
  intro kv hkv he
  rw [he] at hkv
  simp at hkv

theorem stringifyId_err {d : MDoc}
    (h : lookupParam d ("_id".data) = none) :
    stringifyId d = Except.error keyErrMsg := by
  rw [stringifyId, h]

theorem stringifyId_ok {d : MDoc} {v : MVal}
    (h : lookupParam d ("_id".data) = some v) :
    stringifyId d
      = Except.ok (rowOfDoc (setField d ("_id".data)
          (MVal.mstr (pyStrMVal v)))) := by
  rw [stringifyId, h]

theorem mongoFind_head_no_id (d0 : MDoc) (ds : List MDoc) (p : Option MProj)
    (hp : lookupParam (projApply p d0) ("_id".data) = none) :
    mongoFind (d0 :: ds) [] ⟨p, 0, 0, none⟩ = Except.error keyErrMsg := by
  show (((d0 :: (ds.filter (docMatches []))).map (projApply p)).mapM
      stringifyId) = Except.error keyErrMsg
  rw [List.map_cons, List.mapM_cons, stringifyId_err hp]
  rfl

theorem mongoFindOne_no_id (d0 : MDoc) (ds : List MDoc) (p : Option MProj)
    (hp : lookupParam (projApply p d0) ("_id".data) = none)
    (hne : (projApply p d0).isEmpty = false) :
    mongoFindOne (d0 :: ds) [] p = Except.error keyErrMsg := by
  show (if (projApply p d0).isEmpty = true then Except.ok ([] : List MRow)
        else (stringifyId (projApply p d0)).map (fun r => [r]))
      = Except.error keyErrMsg
  rw [hne]
  simp only [Bool.false_eq_true, if_false]
  rw [stringifyId_err hp]
  rfl

theorem mongoFindOne_empty_proj (d0 : MDoc) (ds : List MDoc) (p : Option MProj)
    (he : (projApply p d0).isEmpty = true) :
    mongoFindOne (d0 :: ds) [] p = Except.ok [] := by
  show (if (projApply p d0).isEmpty = true then Except.ok ([] : List MRow)
        else (stringifyId (projApply p d0)).map (fun r => [r]))
      = Except.ok []
  rw [he]
  simp

/-! ## Claim theorems -/

/-- C1, counterexample: on the PostgreSQL adapter, the query `:a, :a` with a
mapping for `a` is rewritten to `$1, $1` - a single positional parameter -
while the positional argument list built from the two scanned occurrences
has two entries, and no `$2` placeholder exists in the rewritten text; so a
name referenced twice does not yield two positions, and argument count is
not preserved. -/
theorem C1_counterexample :
    pgRewriteQuery (":a, :a".data) = ("$1, $1".data) ∧
    paramValues [("a".data, (7 : Int))] (":a, :a".data) = some [7, 7] ∧
    isSubstring ("$2".data) (pgRewriteQuery (":a, :a".data)) = false := by
  have h1 : pgRewriteQuery (":a, :a".data) = ("$1, $1".data) := by
    simp [pgRewriteQuery, pgRewriteAux, findNamed, replaceAll, isWordChar,
      dollarTok, natDigits, natDigitsGo, digitChar]
  refine ⟨h1, ?_, ?_⟩
  · have h2 : findNamed (":a, :a".data) = ["a".data, "a".data] := by
      simp [findNamed, isWordChar]
    rw [paramValues, h2]
    rfl
  · rw [h1]; decide

/-- C1, amended: over any well-formed query (literal segments holding no
colon, dollar or question mark; placeholder names maximal and pairwise
prefix-free), the SQL Server adapter rewrites every placeholder occurrence,
in order of appearance, to a question mark - so the rewritten text has
exactly one `?` per occurrence - and the argument list is the occurrence-wise
lookup of the names, preserving count and order for zero, one and repeated
references; the PostgreSQL adapter does the same with `$1, $2, ...` only
when no name is referenced twice (`Nodup`). -/
theorem C1_amended {V : Type} (ts : List QTok) (ps : List (List Char × V))
    (pv : List Char → V)
    (hwf : wfToks ts = true)
    (hpf : prefixFreeB (parNames ts) = true)
    (hpv : ∀ n ∈ parNames ts, lookupParam ps n = some (pv n)) :
    ssRewriteQuery (render ts) = render (ssMap ts) ∧
    (render (ssMap ts)).count '?' = (parNames ts).length ∧
    paramValues ps (render ts) = some ((parNames ts).map pv) ∧
    ((parNames ts).Nodup → pgRewriteQuery (render ts) = render (pgNumber 1 ts)) := by
  refine ⟨ss_rewrite_general hwf hpf, ?_, paramValues_render hwf hpv,
    fun hnd => pg_rewrite_general hwf hnd hpf⟩
  have hall : ts.all tokWf = true := by
    simp only [wfToks, Bool.and_eq_true] at hwf
    exact hwf.1
  exact count_qmark_render_ssMap hall

/-- C1, witness: the amended theorem applied to a concrete query that
references `a` twice and `b` once. -/
theorem C1_witness :
    wfToks qtoksEx = true ∧
    ssRewriteQuery (render qtoksEx) = render (ssMap qtoksEx) ∧
    (render (ssMap qtoksEx)).count '?' = 3 ∧
    paramValues paramsEx (render qtoksEx) = some [1, 1, 2] := by
  have h := C1_amended qtoksEx paramsEx pvEx (by decide) (by decide) (by decide)
  refine ⟨by decide, h.1, ?_, ?_⟩
  · rw [h.2.1]; decide
  · rw [h.2.2.1]; decide

/-- C9: on every adapter, `connect` with a handle already stored attempts a
brand-new connection or pool unconditionally and, on success, overwrites the
stored handle with the new one; no close or release call is issued on the
previous handle (the MongoDB client is even overwritten before the liveness
ping). -/
theorem C9_connect_discards_old (h p newClient : Nat) :
    poolConnect (some h) (Except.ok p) = (some p, true, [ConnAction.createNew]) ∧
    ConnAction.closedOld ∉ (poolConnect (some h) (Except.ok p)).2.2 ∧
    mongoConnect (some h) newClient true
      = (some newClient, true, [ConnAction.createNew]) ∧
    ConnAction.closedOld ∉ (mongoConnect (some h) newClient true).2.2 := by
  refine ⟨rfl, ?_, rfl, ?_⟩
  · show ConnAction.closedOld ∉ [ConnAction.createNew]
    decide
  · show ConnAction.closedOld ∉ [ConnAction.createNew]
    decide

/-- C7, counterexample: for a composite primary key, `PRAGMA table_info`
reports the second key column with `pk = 2`; the adapter flags only
`pk == 1` as `PRI`, so a primary-key member column is returned unflagged. -/
theorem C7_counterexample :
    pragmaInPK ⟨"b".data, "INTEGER".data, 1, none, 2⟩ = true ∧
    (sqliteColumnOf ⟨"b".data, "INTEGER".data, 1, none, 2⟩).key = [] ∧
    sqliteGetTableStructure
        [⟨"a".data, "INTEGER".data, 1, none, 1⟩,
         ⟨"b".data, "INTEGER".data, 1, none, 2⟩]
      = [⟨"a".data, "INTEGER".data, false, "PRI".data, none, []⟩,
         ⟨"b".data, "INTEGER".data, false, [], none, []⟩] := by
  refine ⟨rfl, rfl, rfl⟩

/-- C7, amended: `get_table_structure` preserves the PRAGMA row order (hence
declared ordinal order) and flags a column `PRI` exactly when it is the
FIRST column of the primary key (`pk = 1`); later columns of a composite
primary key are not flagged. -/
theorem C7_amended (rows : List PragmaRow) :
    (sqliteGetTableStructure rows).map ColumnDesc.cname
        = rows.map PragmaRow.cname ∧
    ∀ r ∈ rows, ((sqliteColumnOf r).key = "PRI".data ↔ r.pk = 1) := by
  constructor
  · simp [sqliteGetTableStructure, sqliteColumnOf]
  · intro r _
    by_cases h : r.pk = 1
    · simp [sqliteColumnOf, h]
    · simp only [sqliteColumnOf, if_neg h]
      constructor
      · intro he
        exact absurd he.symm (by decide)
      · intro he
        exact absurd he h

/-- C7, witness: the amended theorem applied to a single-column primary
key. -/
theorem C7_witness :
    (sqliteGetTableStructure [⟨"id".data, "INTEGER".data, 0, none, 1⟩]).map
        ColumnDesc.cname = ["id".data] ∧
    ((sqliteColumnOf ⟨"id".data, "INTEGER".data, 0, none, 1⟩).key
        = "PRI".data ↔ (1 : Int) = 1) := by
  have h := C7_amended [⟨"id".data, "INTEGER".data, 0, none, 1⟩]
  exact ⟨h.1, h.2 _ (by simp)⟩

/-- C8, counterexample: `get_indexes` on the demo `employees` table returns
three indexes, not two - the two created ones plus the automatic unique
index backing `email TEXT UNIQUE`. -/
theorem C8_counterexample :
    demoGetIndexesEmployees.length = 3 ∧
    ¬ demoGetIndexesEmployees.length = 2 := by
  constructor
  · rfl
  · decide

/-- C8, amended: on the demo adapter, `get_schemas` returns exactly one
schema and `get_tables` exactly the two seeded tables (`employees` holding
the `department_id` column referring to `departments`); `get_indexes` on
`employees` returns three named indexes: the two created ones and the
automatic unique index on `email`. -/
theorem C8_amended :
    demoGetSchemas.length = 1 ∧
    demoGetTables = ["departments".data, "employees".data] ∧
    "department_id".data ∈ (demoTables.getD 0 ⟨[], []⟩).columns ∧
    demoGetIndexesEmployees.map IndexDesc.iname
      = ["idx_employee_name".data, "idx_employee_dept".data,
         "sqlite_autoindex_employees_1".data] := by
  refine ⟨rfl, by decide, by decide, rfl⟩

/-- C2, counterexample: a write on the PostgreSQL adapter returns the
driver's row list - empty for a plain INSERT - so no one-row summary exists;
and the document store reports its delete count under `deleted_count`, a
different key from the relational adapters' `affected_rows`. -/
theorem C2_counterexample :
    pgExecuteQuery true true (Except.ok []) = PyResult.ret [] ∧
    mysqlExecuteQuery true true (Except.ok ([], 3)) ("DELETE FROM t".data)
      = PyResult.ret [affectedRow 3] ∧
    mongoExecuteQuery ⟨[("t".data, [[("x".data, MVal.mint 1)]])], 0⟩
      (MongoInput.structured
        { collection := "t".data, operation := "delete".data, many := true })
      = PyResult.ret ([[("deleted_count".data, MRVal.scal (MVal.mint 1))]],
          ⟨[("t".data, [])], 0⟩) ∧
    ("deleted_count".data ≠ "affected_rows".data) := by
  refine ⟨rfl, rfl, rfl, by decide⟩

/-- C2, amended: the MySQL, SQL Server and SQLite adapters return exactly
one summary row for write statements, all under the shared key
`affected_rows`; the PostgreSQL adapter has no write-summary branch and
returns the fetched rows unchanged (empty for a write without RETURNING);
the document store returns one summary row per write but under
operation-specific keys (`deleted_count`; `matched_count`/`modified_count`/
`upserted_id`; `inserted_id`/`inserted_ids`).  Read statements return the
fetched row sequence. -/
theorem C2_amended (q : List Char) (rows : List Row) (rc : Int)
    (cp : Bool) (db : MongoDB) (c : List Char) (f : List (List Char × MVal))
    (hc : c.isEmpty = false) :
    (mysqlIsRead q = false →
      mysqlExecuteQuery true cp (Except.ok (rows, rc)) q
        = PyResult.ret [affectedRow rc]) ∧
    (ssIsRead q = false →
      ssExecuteQuery true cp (Except.ok (rows, rc)) q
        = PyResult.ret [affectedRow rc]) ∧
    (sqliteIsWrite q = true →
      sqliteExecuteQuery true cp (Except.ok ([], rc)) q
        = PyResult.ret [affectedRow rc]) ∧
    pgExecuteQuery true cp (Except.ok rows) = PyResult.ret rows ∧
    (mysqlIsRead q = true →
      mysqlExecuteQuery true cp (Except.ok (rows, rc)) q = PyResult.ret rows) ∧
    (∃ n db2, mongoExecuteQuery db (MongoInput.structured
        { collection := c, operation := "delete".data, many := true,
          filter := f })
      = PyResult.ret
          ([[("deleted_count".data, MRVal.scal (MVal.mint n))]], db2)) ∧
    (∃ m u db2, mongoExecuteQuery db (MongoInput.structured
        { collection := c, operation := "update".data,
          updateNonempty := true, filter := f })
      = PyResult.ret
          ([[("matched_count".data, MRVal.scal (MVal.mint m)),
             ("modified_count".data, MRVal.scal (MVal.mint m)),
             ("upserted_id".data, MRVal.scal u)]], db2)) := by
  refine ⟨?_, ?_, ?_, rfl, ?_, ?_, ?_⟩
  · intro h
    simp [mysqlExecuteQuery, h]
  · intro h
    simp [ssExecuteQuery, h]
  · intro h
    simp [sqliteExecuteQuery, h]
  · intro h
    simp [mysqlExecuteQuery, h]
  · obtain ⟨ch, ct, rfl⟩ : ∃ ch ct, c = ch :: ct := by
      cases c with
      | nil => simp at hc
      | cons ch ct => exact ⟨ch, ct, rfl⟩
    exact ⟨_, _, rfl⟩
  · obtain ⟨ch, ct, rfl⟩ : ∃ ch ct, c = ch :: ct := by
      cases c with
      | nil => simp at hc
      | cons ch ct => exact ⟨ch, ct, rfl⟩
    exact ⟨_, _, _, rfl⟩

/-- C2, witness: the amended theorem instantiated at a DELETE statement and
a one-document store. -/
theorem C2_witness :
    mysqlExecuteQuery true true (Except.ok ([], 2)) ("DELETE FROM t".data)
      = PyResult.ret [affectedRow 2] ∧
    sqliteExecuteQuery true true (Except.ok ([], 2)) ("DELETE FROM t".data)
      = PyResult.ret [affectedRow 2] ∧
    (∃ n db2, mongoExecuteQuery ⟨[("t".data, [[("x".data, MVal.mint 1)]])], 0⟩
      (MongoInput.structured
        { collection := "t".data, operation := "delete".data, many := true })
      = PyResult.ret
          ([[("deleted_count".data, MRVal.scal (MVal.mint n))]], db2)) := by
  have h := C2_amended ("DELETE FROM t".data) [] 2 true
    ⟨[("t".data, [[("x".data, MVal.mint 1)]])], 0⟩ ("t".data) [] (by decide)
  exact ⟨h.1 (by decide), h.2.2.1 (by decide), h.2.2.2.2.2.1⟩

/-- C3, counterexample: on the MySQL adapter the pool acquisition sits
outside the try-block, so with no pool and a failing implicit connect,
`execute_query` raises (`AttributeError` on the `None` pool) instead of
returning an error row. -/
theorem C3_counterexample :
    mysqlExecuteQuery false false (Except.ok ([], 0)) ("SELECT 1".data)
      = PyResult.exn noneAttrMsg ∧
    (mysqlExecuteQuery false false (Except.ok ([], 0))
        ("SELECT 1".data)).isRet = false := by
  exact ⟨rfl, rfl⟩

/-- C3, amended: the PostgreSQL, SQL Server, SQLite and document-store
adapters catch every failure inside `execute_query` and return it as the
one-element sequence holding only an `error` field, never raising; the
MySQL adapter does the same for failures during execution, but when the
pool is absent and the implicit connect fails, the acquisition on the
`None` pool raises to the caller. -/
theorem C3_amended (q e : List Char) (drv : SqlExec)
    (drvp : Except (List Char) (List Row)) (cp co : Bool)
    (db : MongoDB) (inp : MongoInput) :
    (pgExecuteQuery cp co drvp).isRet = true ∧
    (ssExecuteQuery cp co drv q).isRet = true ∧
    (sqliteExecuteQuery cp co drv q).isRet = true ∧
    (mongoExecuteQuery db inp).isRet = true ∧
    pgExecuteQuery true co (Except.error e) = PyResult.ret [errorRow e] ∧
    ssExecuteQuery true co (Except.error e) q = PyResult.ret [errorRow e] ∧
    sqliteExecuteQuery true co (Except.error e) q
      = PyResult.ret [errorRow e] ∧
    ((cp || co) = true →
      mysqlExecuteQuery cp co (Except.error e) q
        = PyResult.ret [errorRow e]) ∧
    ((cp || co) = false →
      mysqlExecuteQuery cp co drv q = PyResult.exn noneAttrMsg) ∧
    (errorRow e).map Prod.fst = ["error".data] := by
  refine ⟨rfl, rfl, rfl, rfl, rfl, rfl, rfl, ?_, ?_, rfl⟩
  · intro h
    simp [mysqlExecuteQuery, h]
  · intro h
    simp [mysqlExecuteQuery, h]

/-- C3, witness: the amended theorem instantiated at a failing driver and at
an absent pool. -/
theorem C3_witness :
    mysqlExecuteQuery false false (Except.ok ([], 1)) ("SELECT 1".data)
      = PyResult.exn noneAttrMsg ∧
    sqliteExecuteQuery true false (Except.error ("boom".data)) ("SELECT 1".data)
      = PyResult.ret [errorRow ("boom".data)] ∧
    (mongoExecuteQuery ⟨[], 0⟩ (MongoInput.structured {})).isRet = true := by
  have h := C3_amended ("SELECT 1".data) ("boom".data) (Except.ok ([], 1))
    (Except.ok []) false false ⟨[], 0⟩ (MongoInput.structured {})
  exact ⟨h.2.2.2.2.2.2.2.2.1 rfl, h.2.2.2.2.2.2.1, h.2.2.2.1⟩

/-- C10, counterexample: for a collection whose document holds only `_id`,
a findOne with an `_id`-excluding projection returns an EMPTY result, not
the error marker - the projected document is empty, hence falsy, and the
source's `if document:` guard (mongodb.py line 184) skips the
stringification, so no `KeyError` occurs. -/
theorem C10_counterexample :
    mongoExecuteQuery ⟨[("users".data, [[("_id".data, MVal.moid 5)]])], 9⟩
      (MongoInput.structured
        { collection := "users".data, operation := "findOne".data,
          projection := some [("_id".data, false)] })
      = PyResult.ret ([],
          ⟨[("users".data, [[("_id".data, MVal.moid 5)]])], 9⟩) ∧
    ([] : List MRow) ≠ [mErrorRow keyErrMsg] := by
  exact ⟨rfl, by decide⟩

/-- C10, amended: over a non-empty collection, a find whose projection
excludes `_id` always makes `execute_query` return the one-element error
marker (the stringification in the find loop is unconditional, and the
`KeyError` on the missing field is caught by the adapter's catch-all); a
findOne does so exactly when the projected first matching document is
non-empty - when the projection leaves it empty, the falsy-document guard
skips the conversion and findOne returns an empty result instead. -/
theorem C10_amended (db : MongoDB) (c : List Char)
    (hc : c.isEmpty = false) (hne : getColl db c ≠ []) :
    mongoExecuteQuery db (MongoInput.structured
      { collection := c, operation := "find".data,
        projection := some [("_id".data, false)] })
      = PyResult.ret ([mErrorRow keyErrMsg], db) ∧
    (∀ d0 ds, getColl db c = d0 :: ds →
      (projApply (some [("_id".data, false)]) d0).isEmpty = false →
      mongoExecuteQuery db (MongoInput.structured
        { collection := c, operation := "findOne".data,
          projection := some [("_id".data, false)] })
        = PyResult.ret ([mErrorRow keyErrMsg], db)) ∧
    (∀ d0 ds, getColl db c = d0 :: ds →
      (projApply (some [("_id".data, false)]) d0).isEmpty = true →
      mongoExecuteQuery db (MongoInput.structured
        { collection := c, operation := "findOne".data,
          projection := some [("_id".data, false)] })
        = PyResult.ret ([], db)) := by
  obtain ⟨ch, ct, rfl⟩ : ∃ ch ct, c = ch :: ct := by
    cases c with
    | nil => simp at hc
    | cons ch ct => exact ⟨ch, ct, rfl⟩
  refine ⟨?_, ?_, ?_⟩
  · obtain ⟨d0, ds, hcoll⟩ : ∃ d0 ds, getColl db (ch :: ct) = d0 :: ds := by
      cases hg : getColl db (ch :: ct) with
      | nil => exact absurd hg hne
      | cons d0 ds => exact ⟨d0, ds, rfl⟩
    have hs : mongoStructured db
        { collection := ch :: ct, operation := "find".data,
          projection := some [("_id".data, false)] }
        = Except.error keyErrMsg := by
      have hdef : mongoStructured db
          { collection := ch :: ct, operation := "find".data,
            projection := some [("_id".data, false)] }
          = (mongoFind (getColl db (ch :: ct)) []
              ⟨some [("_id".data, false)], 0, 0, none⟩).map
                (fun rs => (rs, db)) := rfl
      rw [hdef, hcoll, mongoFind_head_no_id d0 ds _ (projApply_excl_id d0)]
      rfl
    rw [mongoExecuteQuery, hs]
  · intro d0 ds hcoll hpne
    have hs : mongoStructured db
        { collection := ch :: ct, operation := "findOne".data,
          projection := some [("_id".data, false)] }
        = Except.error keyErrMsg := by
      have hdef : mongoStructured db
          { collection := ch :: ct, operation := "findOne".data,
            projection := some [("_id".data, false)] }
          = (mongoFindOne (getColl db (ch :: ct)) []
              (some [("_id".data, false)])).map (fun rs => (rs, db)) := rfl
      rw [hdef, hcoll,
        mongoFindOne_no_id d0 ds _ (projApply_excl_id d0) hpne]
      rfl
    rw [mongoExecuteQuery, hs]
  · intro d0 ds hcoll hpe
    have hs : mongoStructured db
        { collection := ch :: ct, operation := "findOne".data,
          projection := some [("_id".data, false)] }
        = Except.ok ([], db) := by
      have hdef : mongoStructured db
          { collection := ch :: ct, operation := "findOne".data,
            projection := some [("_id".data, false)] }
          = (mongoFindOne (getColl db (ch :: ct)) []
              (some [("_id".data, false)])).map (fun rs => (rs, db)) := rfl
      rw [hdef, hcoll, mongoFindOne_empty_proj d0 ds _ hpe]
      rfl
    rw [mongoExecuteQuery, hs]

/-- C10, witness: the amended theorem at a one-document collection whose
document carries a field besides `_id`, yielding the error marker for both
find and findOne. -/
theorem C10_witness :
    mongoExecuteQuery
        ⟨[("users".data, [[("_id".data, MVal.moid 5),
           ("name".data, MVal.mstr ("x".data))]])], 9⟩
      (MongoInput.structured
        { collection := "users".data, operation := "find".data,
          projection := some [("_id".data, false)] })
      = PyResult.ret ([mErrorRow keyErrMsg],
          ⟨[("users".data, [[("_id".data, MVal.moid 5),
             ("name".data, MVal.mstr ("x".data))]])], 9⟩) ∧
    mongoExecuteQuery
        ⟨[("users".data, [[("_id".data, MVal.moid 5),
           ("name".data, MVal.mstr ("x".data))]])], 9⟩
      (MongoInput.structured
        { collection := "users".data, operation := "findOne".data,
          projection := some [("_id".data, false)] })
      = PyResult.ret ([mErrorRow keyErrMsg],
          ⟨[("users".data, [[("_id".data, MVal.moid 5),
             ("name".data, MVal.mstr ("x".data))]])], 9⟩) := by
  have h := C10_amended
    ⟨[("users".data, [[("_id".data, MVal.moid 5),
       ("name".data, MVal.mstr ("x".data))]])], 9⟩
    ("users".data) (by decide) (by decide)
  exact ⟨h.1,
    h.2.1 [("_id".data, MVal.moid 5), ("name".data, MVal.mstr ("x".data))]
      [] (by decide) (by decide)⟩

/-- C5, counterexample: the identifier returned for an inserted document is
indeed a string, but a subsequent find whose filter uses that string returns
NO documents - the stored identifier is the backend-internal `ObjectId`,
which never equals its string form, and the adapter performs no conversion
of filter values. -/
theorem C5_counterexample :
    mongoExecuteQuery ⟨[("users".data, [])], 7⟩
      (MongoInput.structured
        { collection := "users".data, operation := "insert".data,
          documents := [[("name".data, MVal.mstr ("x".data))]] })
      = PyResult.ret
          ([[("inserted_id".data, MRVal.scal (MVal.mstr (oidStr 7)))]],
           ⟨[("users".data,
              [[("name".data, MVal.mstr ("x".data)),
                ("_id".data, MVal.moid 7)]])], 8⟩) ∧
    mongoExecuteQuery
      ⟨[("users".data,
         [[("name".data, MVal.mstr ("x".data)),
           ("_id".data, MVal.moid 7)]])], 8⟩
      (MongoInput.structured
        { collection := "users".data, operation := "find".data,
          filter := [("_id".data, MVal.mstr (oidStr 7))] })
      = PyResult.ret ([],
          ⟨[("users".data,
             [[("name".data, MVal.mstr ("x".data)),
               ("_id".data, MVal.moid 7)]])], 8⟩) := by
  exact ⟨rfl, rfl⟩

/-- C5, amended: inserting a document without `_id` returns its fresh
identifier as a string (never the backend-internal handle); a subsequent
find whose filter uses that STRING identifier returns no documents, while a
find whose filter carries the `ObjectId` itself returns the document with
matching field values and its identifier stringified. -/
theorem C5_amended (db : MongoDB) (c : List Char) (d : MDoc)
    (hc : c.isEmpty = false)
    (hid : lookupParam d ("_id".data) = none) :
    mongoExecuteQuery db (MongoInput.structured
      { collection := c, operation := "insert".data, documents := [d] })
      = PyResult.ret
          ([[("inserted_id".data,
              MRVal.scal (MVal.mstr (oidStr db.nextOid)))]],
           setColl { db with nextOid := db.nextOid + 1 } c
             (getColl db c ++ [d ++ [("_id".data, MVal.moid db.nextOid)]])) ∧
    (∀ db2 : MongoDB,
      getColl db2 c = [d ++ [("_id".data, MVal.moid db.nextOid)]] →
      mongoExecuteQuery db2 (MongoInput.structured
        { collection := c, operation := "find".data,
          filter := [("_id".data, MVal.mstr (oidStr db.nextOid))] })
        = PyResult.ret ([], db2)) ∧
    (∀ db2 : MongoDB,
      getColl db2 c = [d ++ [("_id".data, MVal.moid db.nextOid)]] →
      mongoExecuteQuery db2 (MongoInput.structured
        { collection := c, operation := "find".data,
          filter := [("_id".data, MVal.moid db.nextOid)] })
        = PyResult.ret
            ([rowOfDoc (d ++ [("_id".data,
                MVal.mstr (oidStr db.nextOid))])], db2)) := by
  obtain ⟨ch, ct, rfl⟩ : ∃ ch ct, c = ch :: ct := by
    cases c with
    | nil => simp at hc
    | cons ch ct => exact ⟨ch, ct, rfl⟩
  have hlook : lookupParam (d ++ [("_id".data, MVal.moid db.nextOid)])
      ("_id".data) = some (MVal.moid db.nextOid) :=
    lookupParam_append_single hid _
  refine ⟨?_, ?_, ?_⟩
  · have hprep : insertPrep db.nextOid d
        = (d ++ [("_id".data, MVal.moid db.nextOid)],
           MVal.moid db.nextOid, db.nextOid + 1) := by
      rw [insertPrep, hid]
    have hs : mongoStructured db
        { collection := ch :: ct, operation := "insert".data,
          documents := [d] }
        = Except.ok
            ([[("inserted_id".data,
                MRVal.scal (MVal.mstr (pyStrMVal (insertPrep db.nextOid d).2.1)))]],
             setColl { db with nextOid := (insertPrep db.nextOid d).2.2 }
               (ch :: ct)
               (getColl db (ch :: ct) ++ [(insertPrep db.nextOid d).1])) := rfl
    rw [mongoExecuteQuery, hs, hprep]
    rfl
  · intro db2 hcoll
    have hmatch : docMatches
        [("_id".data, MVal.mstr (oidStr db.nextOid))]
        (d ++ [("_id".data, MVal.moid db.nextOid)]) = false := by
      simp only [docMatches, List.all_cons, List.all_nil, hlook,
        Bool.and_true]
      exact decide_eq_false (fun h => MVal.noConfusion h)
    have hfind : mongoFind (getColl db2 (ch :: ct))
        [("_id".data, MVal.mstr (oidStr db.nextOid))] ⟨none, 0, 0, none⟩
        = Except.ok [] := by
      rw [hcoll]
      show ((([d ++ [("_id".data, MVal.moid db.nextOid)]].filter
          (docMatches [("_id".data, MVal.mstr (oidStr db.nextOid))])).map
            (projApply none)).mapM stringifyId) = Except.ok []
      rw [List.filter_cons, if_neg (by rw [hmatch]; exact Bool.false_ne_true)]
      rfl
    have hs : mongoStructured db2
        { collection := ch :: ct, operation := "find".data,
          filter := [("_id".data, MVal.mstr (oidStr db.nextOid))] }
        = Except.ok ([], db2) := by
      have hdef : mongoStructured db2
          { collection := ch :: ct, operation := "find".data,
            filter := [("_id".data, MVal.mstr (oidStr db.nextOid))] }
          = (mongoFind (getColl db2 (ch :: ct))
              [("_id".data, MVal.mstr (oidStr db.nextOid))]
              ⟨none, 0, 0, none⟩).map (fun rs => (rs, db2)) := rfl
      rw [hdef, hfind]
      rfl
    rw [mongoExecuteQuery, hs]
  · intro db2 hcoll
    have hmatch : docMatches
        [("_id".data, MVal.moid db.nextOid)]
        (d ++ [("_id".data, MVal.moid db.nextOid)]) = true := by
      simp only [docMatches, List.all_cons, List.all_nil, hlook,
        Bool.and_true]
      exact decide_eq_true trivial
    have hfind : mongoFind (getColl db2 (ch :: ct))
        [("_id".data, MVal.moid db.nextOid)] ⟨none, 0, 0, none⟩
        = Except.ok [rowOfDoc (d ++ [("_id".data,
            MVal.mstr (oidStr db.nextOid))])] := by
      rw [hcoll]
      show ((([d ++ [("_id".data, MVal.moid db.nextOid)]].filter
          (docMatches [("_id".data, MVal.moid db.nextOid)])).map
            (projApply none)).mapM stringifyId) = _
      rw [List.filter_cons, if_pos (by rw [hmatch])]
      rw [List.filter_nil, List.map_cons, List.map_nil, List.mapM_cons]
      rw [show projApply none (d ++ [("_id".data, MVal.moid db.nextOid)])
          = d ++ [("_id".data, MVal.moid db.nextOid)] from rfl]
      rw [stringifyId_ok hlook, setField_append_notpresent hid]
      rfl
    have hs : mongoStructured db2
        { collection := ch :: ct, operation := "find".data,
          filter := [("_id".data, MVal.moid db.nextOid)] }
        = Except.ok ([rowOfDoc (d ++ [("_id".data,
            MVal.mstr (oidStr db.nextOid))])], db2) := by
      have hdef : mongoStructured db2
          { collection := ch :: ct, operation := "find".data,
            filter := [("_id".data, MVal.moid db.nextOid)] }
          = (mongoFind (getColl db2 (ch :: ct))
              [("_id".data, MVal.moid db.nextOid)]
              ⟨none, 0, 0, none⟩).map (fun rs => (rs, db2)) := rfl
      rw [hdef, hfind]
      rfl
    rw [mongoExecuteQuery, hs]

/-- C5, witness: the amended theorem at a concrete store and document. -/
theorem C5_witness :
    mongoExecuteQuery ⟨[("users".data, [])], 7⟩
      (MongoInput.structured
        { collection := "users".data, operation := "insert".data,
          documents := [[("name".data, MVal.mstr ("x".data))]] })
      = PyResult.ret
          ([[("inserted_id".data, MRVal.scal (MVal.mstr (oidStr 7)))]],
           setColl ⟨[("users".data, [])], 8⟩ ("users".data)
             ([[("name".data, MVal.mstr ("x".data)),
                ("_id".data, MVal.moid 7)]])) := by
  have h := C5_amended ⟨[("users".data, [])], 7⟩ ("users".data)
    [("name".data, MVal.mstr ("x".data))] (by decide) (by decide)
  exact h.1

/-- C6: the document-store `execute_query` accepts both the structured form
`\x7bcollection, operation, filter, options\x7d` and the compact textual form
`collection.operation(argsJson)`, and supports find (with projection, limit,
skip and sort), findOne, count, aggregate, insert (one and many), update
(one and many, with upsert) and delete (one and many) through the
structured form, and find, findOne, aggregate, count and distinct through
the compact form; an input in neither form yields the error marker. -/
theorem C6_query_surface :
    mongoExecuteQuery mdbEx (MongoInput.structured
      { collection := "users".data, operation := "find".data,
        projection := some [("name".data, true)], limit := 2, skip := 1,
        sort := some ("age".data, true) })
      = PyResult.ret
          ([[("_id".data, MRVal.scal (MVal.mstr ("oid3".data))),
             ("name".data, MRVal.scal (MVal.mstr ("b".data)))],
            [("_id".data, MRVal.scal (MVal.mstr ("oid1".data))),
             ("name".data, MRVal.scal (MVal.mstr ("c".data)))]], mdbEx) ∧
    mongoExecuteQuery mdbEx (MongoInput.structured
      { collection := "users".data, operation := "findOne".data,
        filter := [("age".data, MVal.mint 20)] })
      = PyResult.ret
          ([[("_id".data, MRVal.scal (MVal.mstr ("oid3".data))),
             ("age".data, MRVal.scal (MVal.mint 20)),
             ("name".data, MRVal.scal (MVal.mstr ("b".data)))]], mdbEx) ∧
    mongoExecuteQuery mdbEx (MongoInput.structured
      { collection := "users".data, operation := "count".data })
      = PyResult.ret
          ([[("count".data, MRVal.scal (MVal.mint 3))]], mdbEx) ∧
    mongoExecuteQuery mdbEx (MongoInput.structured
      { collection := "users".data, operation := "aggregate".data })
      = PyResult.ret
          ([[("_id".data, MRVal.scal (MVal.mstr ("oid1".data))),
             ("age".data, MRVal.scal (MVal.mint 30)),
             ("name".data, MRVal.scal (MVal.mstr ("c".data)))],
            [("_id".data, MRVal.scal (MVal.mstr ("oid2".data))),
             ("age".data, MRVal.scal (MVal.mint 10)),
             ("name".data, MRVal.scal (MVal.mstr ("a".data)))],
            [("_id".data, MRVal.scal (MVal.mstr ("oid3".data))),
             ("age".data, MRVal.scal (MVal.mint 20)),
             ("name".data, MRVal.scal (MVal.mstr ("b".data)))]], mdbEx) ∧
    mongoExecuteQuery mdbEx (MongoInput.structured
      { collection := "users".data, operation := "insert".data,
        documents := [[("a".data, MVal.mint 1)]] })
      = PyResult.ret
          ([[("inserted_id".data, MRVal.scal (MVal.mstr ("oid50".data)))]],
           ⟨[("users".data,
              mdocsEx ++ [[("a".data, MVal.mint 1),
                           ("_id".data, MVal.moid 50)]])], 51⟩) ∧
    mongoExecuteQuery mdbEx (MongoInput.structured
      { collection := "users".data, operation := "insert".data,
        documents := [[("a".data, MVal.mint 1)], [("b".data, MVal.mint 2)]] })
      = PyResult.ret
          ([[("inserted_ids".data,
              MRVal.list [MVal.mstr ("oid50".data),
                          MVal.mstr ("oid51".data)])]],
           ⟨[("users".data,
              mdocsEx ++ [[("a".data, MVal.mint 1), ("_id".data, MVal.moid 50)],
                          [("b".data, MVal.mint 2),
                           ("_id".data, MVal.moid 51)]])], 52⟩) ∧
    mongoExecuteQuery mdbEx (MongoInput.structured
      { collection := "users".data, operation := "update".data,
        updateNonempty := true, filter := [("age".data, MVal.mint 30)] })
      = PyResult.ret
          ([[("matched_count".data, MRVal.scal (MVal.mint 1)),
             ("modified_count".data, MRVal.scal (MVal.mint 1)),
             ("upserted_id".data, MRVal.scal MVal.mnull)]], mdbEx) ∧
    mongoExecuteQuery mdbEx (MongoInput.structured
      { collection := "users".data, operation := "update".data,
        updateNonempty := true, many := true, upsert := true,
        filter := [("age".data, MVal.mint 99)] })
      = PyResult.ret
          ([[("matched_count".data, MRVal.scal (MVal.mint 0)),
             ("modified_count".data, MRVal.scal (MVal.mint 0)),
             ("upserted_id".data,
              MRVal.scal (MVal.mstr ("oid50".data)))]], mdbEx) ∧
    mongoExecuteQuery mdbEx (MongoInput.structured
      { collection := "users".data, operation := "delete".data,
        filter := [("age".data, MVal.mint 10)] })
      = PyResult.ret
          ([[("deleted_count".data, MRVal.scal (MVal.mint 1))]],
           ⟨[("users".data,
              [mdocsEx.getD 0 [], mdocsEx.getD 2 []])], 50⟩) ∧
    mongoExecuteQuery mdbEx (MongoInput.structured
      { collection := "users".data, operation := "delete".data,
        many := true })
      = PyResult.ret
          ([[("deleted_count".data, MRVal.scal (MVal.mint 3))]],
           ⟨[("users".data, [])], 50⟩) ∧
    mongoExecuteQuery mdbEx (MongoInput.textual
      ("users.distinct(\x7b\"field\": \"age\"\x7d)".data)
      (fun _ => some { field := "age".data }))
      = PyResult.ret
          ([[("values".data,
              MRVal.list [MVal.mint 30, MVal.mint 10, MVal.mint 20])]],
           mdbEx) ∧
    mongoExecuteQuery mdbEx (MongoInput.textual
      ("users.count(\x7b\x7d)".data) (fun _ => some {}))
      = PyResult.ret
          ([[("count".data, MRVal.scal (MVal.mint 3))]], mdbEx) ∧
    mongoExecuteQuery mdbEx (MongoInput.textual
      ("SELECT 1 FROM x".data) (fun _ => some {}))
      = PyResult.ret ([mErrorRow invalidFormatMsg], mdbEx) := by
  refine ⟨rfl, rfl, rfl, rfl, rfl, rfl, rfl, rfl, rfl, rfl, rfl, rfl, rfl⟩

/-- C4: `create_connector` - a pure, synchronous function of the DSN and
the file-system predicate, performing no network I/O - yields an error for
an unrecognized scheme and for any DSN rejected by the selected backend's
structural validation, and for every recognized scheme whose DSN passes
that validation it returns an adapter whose class defines all ten contract
operations. -/
theorem C4_factory (fe : List Char → Bool) (dsn : List Char) :
    (schemeOf dsn ∉ recognizedSchemes →
      exceptIsErr (create_connector fe dsn) = true) ∧
    (backendRejects fe dsn = true →
      exceptIsErr (create_connector fe dsn) = true) ∧
    (schemeOf dsn ∈ recognizedSchemes → backendRejects fe dsn = false →
      ∃ a, create_connector fe dsn = Except.ok a) ∧
    (∀ a, create_connector fe dsn = Except.ok a →
      contractOps.all (fun op => (adapterMethods a).contains op) = true) := by
  have hops : ∀ a : Adapter,
      contractOps.all (fun op => (adapterMethods a).contains op) = true := by
    intro a
    cases a with
    | mysql cfg =>
      show contractOps.all (fun op => contractOps.contains op) = true
      decide
    | postgres d =>
      show contractOps.all (fun op => contractOps.contains op) = true
      decide
    | sqlite p =>
      show contractOps.all
        (fun op => ("_dict_factory".data :: contractOps).contains op) = true
      decide
    | sqlserver cfg =>
      show contractOps.all (fun op => contractOps.contains op) = true
      decide
    | mongodb d b =>
      show contractOps.all (fun op => contractOps.contains op) = true
      decide
  by_cases h0 : dsn.isEmpty = true
  · have hd : dsn = [] := by
      cases dsn with
      | nil => rfl
      | cons c l => simp at h0
    subst hd
    refine ⟨fun _ => rfl, fun _ => rfl, ?_, fun a ha => hops a⟩
    intro hmem _
    exact absurd hmem (by decide)
  · by_cases h1 : schemeOf dsn = "mysql".data
    · have hcc : create_connector fe dsn = (mysqlParse dsn).map Adapter.mysql := by
        simp [create_connector, h0, h1]
      refine ⟨?_, ?_, ?_, fun a ha => hops a⟩
      · intro hmem
        exact absurd (by rw [h1]; decide : schemeOf dsn ∈ recognizedSchemes) hmem
      · intro hrej
        simp only [backendRejects, h1] at hrej
        simp at hrej
        cases hmp : mysqlParse dsn with
        | error e => rw [hcc, hmp]; rfl
        | ok cfg => rw [hmp] at hrej; cases hrej
      · intro _ hnorej
        simp only [backendRejects, h1] at hnorej
        simp at hnorej
        cases hmp : mysqlParse dsn with
        | error e => rw [hmp] at hnorej; cases hnorej
        | ok cfg => exact ⟨Adapter.mysql cfg, by rw [hcc, hmp]; rfl⟩
    · by_cases h2 : schemeOf dsn = "postgres".data
      · have hcc : create_connector fe dsn = Except.ok (Adapter.postgres dsn) := by
          simp [create_connector, h0, h1, h2]
        refine ⟨?_, ?_, ?_, fun a ha => hops a⟩
        · intro hmem
          exact absurd (by rw [h2]; decide : schemeOf dsn ∈ recognizedSchemes) hmem
        · intro hrej
          simp only [backendRejects, h1, h2] at hrej
          simp [h2] at hrej
        · intro _ _
          exact ⟨Adapter.postgres dsn, hcc⟩
      · by_cases h3 : schemeOf dsn = "sqlite".data
        · have hcc : create_connector fe dsn
              = (sqliteParse fe dsn).map Adapter.sqlite := by
            simp [create_connector, h0, h1, h2, h3]
          refine ⟨?_, ?_, ?_, fun a ha => hops a⟩
          · intro hmem
            exact absurd (by rw [h3]; decide : schemeOf dsn ∈ recognizedSchemes) hmem
          · intro hrej
            simp only [backendRejects, h3] at hrej
            simp at hrej
            cases hmp : sqliteParse fe dsn with
            | error e => rw [hcc, hmp]; rfl
            | ok p => rw [hmp] at hrej; cases hrej
          · intro _ hnorej
            simp only [backendRejects, h3] at hnorej
            simp at hnorej
            cases hmp : sqliteParse fe dsn with
            | error e => rw [hmp] at hnorej; cases hnorej
            | ok p => exact ⟨Adapter.sqlite p, by rw [hcc, hmp]; rfl⟩
        · by_cases h4 : schemeOf dsn = "sqlserver".data
          · have hcc : create_connector fe dsn
                = (sqlserverParse dsn).map Adapter.sqlserver := by
              simp [create_connector, h0, h1, h2, h3, h4]
            refine ⟨?_, ?_, ?_, fun a ha => hops a⟩
            · intro hmem
              exact absurd
                (by rw [h4]; decide : schemeOf dsn ∈ recognizedSchemes) hmem
            · intro hrej
              simp only [backendRejects, h4] at hrej
              simp at hrej
              cases hmp : sqlserverParse dsn with
              | error e => rw [hcc, hmp]; rfl
              | ok cfg => rw [hmp] at hrej; cases hrej
            · intro _ hnorej
              simp only [backendRejects, h4] at hnorej
              simp at hnorej
              cases hmp : sqlserverParse dsn with
              | error e => rw [hmp] at hnorej; cases hnorej
              | ok cfg => exact ⟨Adapter.sqlserver cfg, by rw [hcc, hmp]; rfl⟩
          · by_cases h5 : schemeOf dsn = "mongodb".data
            · have hcc : create_connector fe dsn
                  = (mongoParse dsn).map (Adapter.mongodb dsn) := by
                simp [create_connector, h0, h1, h2, h3, h4, h5]
              refine ⟨?_, ?_, ?_, fun a ha => hops a⟩
              · intro hmem
                exact absurd
                  (by rw [h5]; decide : schemeOf dsn ∈ recognizedSchemes) hmem
              · intro hrej
                simp only [backendRejects, h5] at hrej
                simp at hrej
                cases hmp : mongoParse dsn with
                | error e => rw [hcc, hmp]; rfl
                | ok db => rw [hmp] at hrej; cases hrej
              · intro _ hnorej
                simp only [backendRejects, h5] at hnorej
                simp at hnorej
                cases hmp : mongoParse dsn with
                | error e => rw [hmp] at hnorej; cases hnorej
                | ok db => exact ⟨Adapter.mongodb dsn db, by rw [hcc, hmp]; rfl⟩
            · have hcc : exceptIsErr (create_connector fe dsn) = true := by
                simp [create_connector, h0, h1, h2, h3, h4, h5, exceptIsErr]
              refine ⟨fun _ => hcc, fun _ => hcc, ?_, fun a ha => hops a⟩
              intro hmem _
              simp only [recognizedSchemes, List.mem_cons,
                List.mem_singleton] at hmem
              rcases hmem with h | h | h | h | h | h
              · exact absurd h h1
              · exact absurd h h2
              · exact absurd h h3
              · exact absurd h h4
              · exact absurd h h5
              · simp at h

/-- C4, witness: the factory theorem applied to a structurally valid MySQL
DSN and to an unrecognized scheme. -/
theorem C4_witness :
    (∃ a, create_connector (fun _ => true) ("mysql://u:p@h:3306/db".data)
      = Except.ok a) ∧
    exceptIsErr (create_connector (fun _ => true)
      ("oracle://u:p@h:3306/db".data)) = true := by
  constructor
  · apply (C4_factory (fun _ => true) ("mysql://u:p@h:3306/db".data)).2.2.1
    · decide
    · simp [backendRejects, schemeOf, schemeSplit, schemeChar, mysqlParse,
        replaceAll, splitOnChar, pyIntParse, pyStrip, pyIsSpace, digitsVal,
        exceptIsErr]
  · apply (C4_factory (fun _ => true) ("oracle://u:p@h:3306/db".data)).1
    decide

end DbMcp
